import Mathlib

/-!
Verification of the camera application repository (camera_app.py,
usb_camera_app.py, pi_camera_app.py) against its specification.

The Python code is shallowly embedded: JSON configuration values become an
inductive type, dictionaries become association lists, the application
object's fields become a Lean structure, and each method becomes a pure
function on that structure.  External effects (filesystem calls, camera
library calls) are modelled by explicit outcome parameters and action traces.
-/

set_option maxRecDepth 4096

/-! ## JSON values and association-list dictionaries -/

/-- JSON value, as produced by Python's json.load.  Objects are association
lists in insertion order, mirroring Python dict semantics. -/
inductive JValue where
  | null : JValue
  | bool : Bool → JValue
  | num : Int → JValue
  | str : String → JValue
  | obj : List (String × JValue) → JValue

/-- First-occurrence lookup in an association list (Python dict lookup;
insertion order, no duplicate keys in dicts produced by json.load). -/
def lookupJ (k : String) : List (String × JValue) → Option JValue
  | [] => none
  | p :: rest => if p.1 = k then some p.2 else lookupJ k rest

/-- Two-level lookup: value of nested key k2 inside the object stored at
top-level key k1. -/
def lookup2 (k1 k2 : String) (cfg : List (String × JValue)) : Option JValue :=
  match lookupJ k1 cfg with
  | some (JValue.obj sub) => lookupJ k2 sub
  | _ => none

/-- Python dict.update(c) applied to dict d: existing keys of d keep their
position and receive c's value when present; keys of c absent from d are
appended in c's order. -/
def dict_update (d c : List (String × JValue)) : List (String × JValue) :=
  d.map (fun p => match lookupJ p.1 c with
    | some v => (p.1, v)
    | none => p)
  ++ c.filter (fun q => (lookupJ q.1 d).isNone)

/-- The merge loop of CameraApp.load_config (camera_app.py lines 95-100):
for each key of the default config, if the file provides it, a dict-valued
default is updated in place via dict.update and a non-dict default is
replaced.  dict.update with a non-dict argument raises (caught by the outer
handler, which returns the defaults), so the current and all remaining keys
keep their default values in that case. -/
def camMergeConfig : List (String × JValue) → List (String × JValue) → List (String × JValue)
  | [], _ => []
  | (k, dv) :: rest, fileCfg =>
    match lookupJ k fileCfg with
    | none => (k, dv) :: camMergeConfig rest fileCfg
    | some fv =>
      match dv, fv with
      | JValue.obj dsub, JValue.obj fsub =>
          (k, JValue.obj (dict_update dsub fsub)) :: camMergeConfig rest fileCfg
      | JValue.obj dsub, _ => (k, JValue.obj dsub) :: rest
      | _, _ => (k, fv) :: camMergeConfig rest fileCfg

/-- The merge loop of USBCameraApp.load_config and PiCameraApp.load_config
(usb_camera_app.py lines 54-57, pi_camera_app.py lines 55-58): the file's
dict is kept and only missing top-level keys are filled from the defaults. -/
def usbMergeConfig (dflt fileCfg : List (String × JValue)) : List (String × JValue) :=
  fileCfg ++ dflt.filter (fun p => (lookupJ p.1 fileCfg).isNone)

/-- Built-in default configuration of CameraApp (camera_app.py lines 65-88),
parameterised by the user's home directory. -/
def camDefaultConfig (home : String) : List (String × JValue) :=
  [("camera", JValue.obj
      [("width", JValue.num 1280), ("height", JValue.num 720),
       ("fps", JValue.num 30), ("auto_detect", JValue.bool true),
       ("preferred_index", JValue.num 0), ("preferred_type", JValue.str "auto")]),
   ("video", JValue.obj
      [("codec", JValue.str "mp4v"), ("quality", JValue.str "high"),
       ("fps", JValue.num 30)]),
   ("save_paths", JValue.obj
      [("images", JValue.str (home ++ "/Pictures")),
       ("videos", JValue.str (home ++ "/Movies"))]),
   ("display", JValue.obj
      [("show_fps", JValue.bool true), ("show_status", JValue.bool true),
       ("show_timestamp", JValue.bool true)])]

/-- Built-in default configuration of USBCameraApp (usb_camera_app.py
lines 33-47). -/
def usbDefaultConfig (home : String) : List (String × JValue) :=
  [("camera", JValue.obj
      [("width", JValue.num 640), ("height", JValue.num 480),
       ("fps", JValue.num 30)]),
   ("save_paths", JValue.obj
      [("images", JValue.str (home ++ "/Pictures")),
       ("videos", JValue.str (home ++ "/Movies"))]),
   ("video", JValue.obj
      [("codec", JValue.str "MJPG"), ("fps", JValue.num 30)])]

/-- CameraApp.load_config: merge when the file exists and parses as an
object, defaults otherwise. -/
def camLoadConfig (home : String) : Option (List (String × JValue)) → List (String × JValue)
  | none => camDefaultConfig home
  | some fileCfg => camMergeConfig (camDefaultConfig home) fileCfg

/-- USBCameraApp.load_config: merge when the file exists and parses,
defaults otherwise (the default file is also written out in that case). -/
def usbLoadConfig (home : String) : Option (List (String × JValue)) → List (String × JValue)
  | none => usbDefaultConfig home
  | some fileCfg => usbMergeConfig (usbDefaultConfig home) fileCfg

/-- Kind-compatibility of a configuration file with the defaults: wherever a
default entry holds an object, a file value for the same key is also an
object.  This is exactly the condition under which dict.update does not
raise in CameraApp.load_config. -/
def Compat (d fileCfg : List (String × JValue)) : Prop :=
  ∀ p ∈ d, ∀ dsub, p.2 = JValue.obj dsub →
    ∀ fv, lookupJ p.1 fileCfg = some fv → ∃ fsub, fv = JValue.obj fsub

/-- The default configurations have duplicate-free keys, at top level and
inside every section. -/
def NodupNested (d : List (String × JValue)) : Prop :=
  (d.map Prod.fst).Nodup ∧
    ∀ p ∈ d, ∀ dsub, p.2 = JValue.obj dsub → (dsub.map Prod.fst).Nodup

/-! ## Timestamps and saved-file names -/

/-- A Python datetime.datetime value as returned by datetime.now():
calendar fields plus microseconds. -/
structure PyDateTime where
  year : Nat
  month : Nat
  day : Nat
  hour : Nat
  minute : Nat
  second : Nat
  microsecond : Nat
deriving DecidableEq, Repr

/-- Field ranges of a datetime produced by datetime.now() (years of
interest are four-digit). -/
def ValidDT (t : PyDateTime) : Prop :=
  1000 ≤ t.year ∧ t.year ≤ 9999 ∧ 1 ≤ t.month ∧ t.month ≤ 12 ∧
    1 ≤ t.day ∧ t.day ≤ 31 ∧ t.hour ≤ 23 ∧ t.minute ≤ 59 ∧
    t.second ≤ 59 ∧ t.microsecond ≤ 999999

instance (t : PyDateTime) : Decidable (ValidDT t) := by
  unfold ValidDT; infer_instance

/-- Equality of all fields that strftime("%Y%m%d_%H%M%S") can see: the
second-resolution part of the timestamp. -/
def sameSecond (t1 t2 : PyDateTime) : Prop :=
  t1.year = t2.year ∧ t1.month = t2.month ∧ t1.day = t2.day ∧
    t1.hour = t2.hour ∧ t1.minute = t2.minute ∧ t1.second = t2.second

instance (t1 t2 : PyDateTime) : Decidable (sameSecond t1 t2) := by
  unfold sameSecond; infer_instance

/-- Zero-padded two-digit decimal rendering (strftime %m %d %H %M %S). -/
def two_digits (n : Nat) : List Char :=
  [Nat.digitChar (n / 10), Nat.digitChar (n % 10)]

/-- Zero-padded four-digit decimal rendering (strftime %Y for four-digit
years). -/
def four_digits (n : Nat) : List Char :=
  [Nat.digitChar (n / 1000), Nat.digitChar (n / 100 % 10),
   Nat.digitChar (n / 10 % 10), Nat.digitChar (n % 10)]

/-- Character list of strftime("%Y%m%d_%H%M%S"); microseconds do not
appear. -/
def timestampChars (t : PyDateTime) : List Char :=
  four_digits t.year ++ two_digits t.month ++ two_digits t.day ++ ['_'] ++
    two_digits t.hour ++ two_digits t.minute ++ two_digits t.second

/-- datetime.now().strftime("%Y%m%d_%H%M%S") as used by every save
method. -/
def timestampStr (t : PyDateTime) : String :=
  String.mk (timestampChars t)

/-- CameraApp.save_image file name (camera_app.py line 276). -/
def camImageFilename (t : PyDateTime) : String :=
  "Image" ++ timestampStr t ++ ".jpg"

/-- USBCameraApp.save_image file name (usb_camera_app.py line 158). -/
def usbImageFilename (t : PyDateTime) : String :=
  "USB_Image_" ++ timestampStr t ++ ".jpg"

/-- PiCameraApp.save_image file name (pi_camera_app.py line 152). -/
def piImageFilename (t : PyDateTime) : String :=
  "PiCam_Image_" ++ timestampStr t ++ ".jpg"

/-- os.path.join of the configured images directory with the generated
file name (camera_app.py line 277). -/
def camImageFilepath (imagesDir : String) (t : PyDateTime) : String :=
  imagesDir ++ "/" ++ camImageFilename t

/-! ## Directory creation and startup filesystem actions -/

/-- Outcome of a Path.mkdir(parents=True, exist_ok=True) call. -/
inductive FsOutcome where
  | ok : FsOutcome
  | permError : FsOutcome
  | otherError : FsOutcome
deriving DecidableEq, Repr

/-- Filesystem actions performed during application startup. -/
inductive FsAction where
  | mkdir : String → FsAction
  | chmod : String → Nat → FsAction
deriving DecidableEq, Repr

/-- A filesystem environment: the outcome each mkdir attempt would have. -/
structure DirFs where
  mkdirs : String → FsOutcome

/-- Fallback folder name used by USBCameraApp.create_directories
(usb_camera_app.py lines 75, 83). -/
def usbFallbackName (name : String) : String :=
  if name = "videos" then "Movies" else "Pictures"

/-- USBCameraApp.create_directories (usb_camera_app.py lines 67-87) on the
list of save_paths entries.  Returns the updated entries when the method
returns normally, none when an uncaught exception escapes (a fallback mkdir
raising inside an except block), together with the trace of attempted
filesystem actions.  No chmod is ever issued. -/
def usbCreateDirs (fs : DirFs) (cwd : String) :
    List (String × String) → Option (List (String × String)) × List FsAction
  | [] => (some [], [])
  | (name, path) :: rest =>
    match fs.mkdirs path with
    | FsOutcome.ok =>
        let r := usbCreateDirs fs cwd rest
        (r.1.map (fun l => (name, path) :: l), FsAction.mkdir path :: r.2)
    | FsOutcome.permError =>
        let fb := cwd ++ "/" ++ usbFallbackName name
        match fs.mkdirs fb with
        | FsOutcome.ok =>
            let r := usbCreateDirs fs cwd rest
            (r.1.map (fun l => (name, fb) :: l),
             FsAction.mkdir path :: FsAction.mkdir fb :: r.2)
        | _ => (none, [FsAction.mkdir path, FsAction.mkdir fb])
    | FsOutcome.otherError =>
        let fb := cwd ++ "/" ++ usbFallbackName name
        match fs.mkdirs fb with
        | FsOutcome.ok =>
            let r := usbCreateDirs fs cwd rest
            (r.1.map (fun l => (name, fb) :: l),
             FsAction.mkdir path :: FsAction.mkdir fb :: r.2)
        | _ => (none, [FsAction.mkdir path, FsAction.mkdir fb])

/-- Target folder name chosen by PiCameraApp.create_directories in the try
branch (pi_camera_app.py lines 74-77): the configured path itself is
ignored and a home-relative folder is used. -/
def piTargetName (name : String) : String :=
  if name = "images" then "Pictures" else "Movies"

/-- Folder name used by PiCameraApp.create_directories in its exception
handlers (pi_camera_app.py lines 88, 95, 106, 113). -/
def piFallbackName (name : String) : String :=
  if name = "videos" then "Movies" else "Pictures"

/-- PiCameraApp.create_directories (pi_camera_app.py lines 68-117): tries
home/Pictures or home/Movies, falls back to Desktop, then to the current
directory; a failure of the last-resort mkdir escapes.  No chmod is ever
issued. -/
def piCreateDirs (fs : DirFs) (home cwd : String) :
    List (String × String) → Option (List (String × String)) × List FsAction
  | [] => (some [], [])
  | (name, _path) :: rest =>
    let target := home ++ "/" ++ piTargetName name
    let desk := home ++ "/Desktop/" ++ piFallbackName name
    let last := cwd ++ "/" ++ piFallbackName name
    match fs.mkdirs target with
    | FsOutcome.ok =>
        let r := piCreateDirs fs home cwd rest
        (r.1.map (fun l => (name, target) :: l), FsAction.mkdir target :: r.2)
    | _ =>
        match fs.mkdirs desk with
        | FsOutcome.ok =>
            let r := piCreateDirs fs home cwd rest
            (r.1.map (fun l => (name, desk) :: l),
             FsAction.mkdir target :: FsAction.mkdir desk :: r.2)
        | _ =>
            match fs.mkdirs last with
            | FsOutcome.ok =>
                let r := piCreateDirs fs home cwd rest
                (r.1.map (fun l => (name, last) :: l),
                 FsAction.mkdir target :: FsAction.mkdir desk ::
                   FsAction.mkdir last :: r.2)
            | _ => (none, [FsAction.mkdir target, FsAction.mkdir desk,
                           FsAction.mkdir last])

/-- Startup filesystem actions of CameraApp.__init__ (camera_app.py lines
54-61): os.makedirs on both save paths, then os.chmod 0o755 on both,
all before run() and hence before the main loop. -/
def camInitFsActions (images videos : String) : List FsAction :=
  [FsAction.mkdir images, FsAction.mkdir videos,
   FsAction.chmod images 0o755, FsAction.chmod videos 0o755]

/-- Whether a filesystem action is a chmod. -/
def FsAction.isChmod : FsAction → Bool
  | FsAction.chmod _ _ => true
  | _ => false

/-! ## CameraApp state machine -/

/-- The camera backend in use (self.camera_type). -/
inductive CamType where
  | usb : CamType
  | picam : CamType
deriving DecidableEq, Repr

/-- The mutable fields of a CameraApp object that the claims concern.
Handles are modelled by flags: cap / picam / raw_capture record whether the
corresponding object is held (not None), video_writer holds the truthiness
flag stored by start_video_recording. -/
structure CamApp where
  cap : Bool
  picam : Bool
  raw_capture : Bool
  is_recording : Bool
  video_writer : Option Bool
  recording_start_time : Option Nat
  camera_type : Option CamType
  show_status : Bool
  fps_counter : Nat
  fps_start_time : Nat
  current_fps : Nat
deriving DecidableEq, Repr

/-- The state established by CameraApp.__init__ (camera_app.py lines
34-46), with fps_start_time taken at construction time t0. -/
def initCamApp (t0 : Nat) : CamApp :=
  { cap := false, picam := false, raw_capture := false,
    is_recording := false, video_writer := none,
    recording_start_time := none, camera_type := none,
    show_status := true, fps_counter := 0, fps_start_time := t0,
    current_fps := 0 }

/-- CameraApp.start_video_recording (camera_app.py lines 286-316): a no-op
while recording; otherwise the writer is created and stored — a True flag
for the Pi Camera, a cv2.VideoWriter object for USB, both truthy — and the
subsequent truthiness test therefore succeeds and recording starts at the
current time. -/
def start_video_recording (now : Nat) (st : CamApp) : CamApp :=
  if st.is_recording then st
  else
    let writerFlag : Bool := true
    let st1 := { st with video_writer := some writerFlag }
    if writerFlag then
      { st1 with is_recording := true, recording_start_time := some now }
    else st1

/-- CameraApp.stop_video_recording (camera_app.py lines 318-331): a no-op
while idle; otherwise recording stops, the writer is released and cleared
(recording_start_time is left as is). -/
def stop_video_recording (st : CamApp) : CamApp :=
  if st.is_recording = false then st
  else { st with is_recording := false, video_writer := none }

/-- CameraApp.update_fps (camera_app.py lines 333-340) with integer-second
time. -/
def update_fps (now : Nat) (st : CamApp) : CamApp :=
  let c := st.fps_counter + 1
  if st.fps_start_time + 1 ≤ now then
    { st with current_fps := c, fps_counter := 0, fps_start_time := now }
  else { st with fps_counter := c }

/-- CameraApp.cleanup_camera (camera_app.py lines 233-250): release the
handle of the active backend. -/
def cleanup_camera (st : CamApp) : CamApp :=
  match st.camera_type with
  | some CamType.usb => { st with cap := false }
  | some CamType.picam => { st with picam := false, raw_capture := false }
  | none => st

/-- CameraApp.cleanup (camera_app.py lines 476-483): stop a live recording,
then release the camera. -/
def cleanup (st : CamApp) : CamApp :=
  cleanup_camera (if st.is_recording then stop_video_recording st else st)

/-- The outcome one call of detect_cameras / camera initialisation
observes: which USB indices respond (VideoCapture opens and a frame
reads), whether the PiCamera() probe at camera_app.py line 130 succeeds,
whether PiCamera initialisation succeeds, and whether
VideoCapture(i).isOpened() holds at initialisation time.  Each call of
detect_cameras re-probes, so this outcome is a snapshot: see envAt for how
it derives from the hardware and the handles the app currently holds. -/
structure DetectEnv where
  usbWorks : Nat → Bool
  hasPicam : Bool
  picamInitOk : Bool
  usbInitOpens : Nat → Bool

/-- The USB half of CameraApp.detect_cameras (camera_app.py lines 112-124):
indices 0..9 that open and deliver a frame, in increasing order. -/
def detectUsb (env : DetectEnv) : List Nat :=
  (List.range 10).filter env.usbWorks

/-- CameraApp.initialize_usb_camera (camera_app.py lines 170-195): the
VideoCapture object is stored first; failure to open reports False,
success sets the camera type. -/
def initialize_usb_camera (env : DetectEnv) (_index : Nat) (st : CamApp) :
    CamApp × Bool :=
  let st1 := { st with cap := true }
  if env.usbInitOpens _index then
    ({ st1 with camera_type := some CamType.usb }, true)
  else (st1, false)

/-- CameraApp.initialize_picamera (camera_app.py lines 197-219): on success
the PiCamera and its raw capture are held and the camera type is set; on
failure the except handler closes and clears the PiCamera handle. -/
def initialize_picamera (env : DetectEnv) (st : CamApp) : CamApp × Bool :=
  if env.picamInitOk then
    ({ st with picam := true, raw_capture := true,
               camera_type := some CamType.picam }, true)
  else ({ st with picam := false }, false)

/-- CameraApp.initialize_camera (camera_app.py lines 142-168): detection
followed by the preference chain.  In auto mode the Pi Camera wins whenever
detected; USB is tried only otherwise, at the first detected index. -/
def initialize_camera (env : DetectEnv) (pref : String) (st : CamApp) :
    CamApp × Bool :=
  let usbCams := detectUsb env
  if pref = "auto" then
    if env.hasPicam then initialize_picamera env st
    else
      match usbCams with
      | i :: _ => initialize_usb_camera env i st
      | [] => (st, false)
  else if pref = "picam" then
    if env.hasPicam then initialize_picamera env st else (st, false)
  else if pref = "usb" then
    match usbCams with
    | i :: _ => initialize_usb_camera env i st
    | [] => (st, false)
  else (st, false)

/-- CameraApp.switch_camera (camera_app.py lines 401-413): refused while
recording, otherwise re-runs initialize_camera. -/
def switch_camera (env : DetectEnv) (pref : String) (st : CamApp) :
    CamApp × Bool :=
  if st.is_recording then (st, false)
  else initialize_camera env pref st

/-- The hardware ground truth, fixed for a whole run: which USB indices
answer a detection probe, whether a Pi Camera Module is attached, whether
constructing PiCamera succeeds when the device is free, and whether
VideoCapture(i) opens at initialisation time. -/
structure HwEnv where
  usbWorks : Nat → Bool
  hwPicam : Bool
  picamInitOk : Bool
  usbInitOpens : Nat → Bool

/-- The detection outcome a call of detect_cameras / initialize_camera
sees while the app holds the handles recorded in st.  The PiCamera() probe
at camera_app.py line 130 raises when a PiCamera object is already open in
this process, so has_picam reports False while self.picam is held, and
constructing PiCamera inside initialize_picamera fails for the same
reason.  (Whether a held cv2.VideoCapture blocks re-probing the same USB
device is driver-dependent; the USB probe is modelled as state-independent,
which the claims proved here do not depend on.) -/
def envAt (hw : HwEnv) (st : CamApp) : DetectEnv :=
  { usbWorks := hw.usbWorks
    hasPicam := hw.hwPicam && !st.picam
    picamInitOk := hw.picamInitOk && !st.picam
    usbInitOpens := hw.usbInitOpens }

/-! ## Main loop of CameraApp -/

/-- Observable actions of one loop iteration. -/
inductive CamEvent where
  | savedImage : CamEvent
  | recStart : CamEvent
  | recStop : CamEvent
  | overlayToggle : CamEvent
  | camSwitchTried : Bool → CamEvent
  | wroteFrame : CamEvent
  | frameError : CamEvent
deriving DecidableEq, Repr

/-- Why the main loop stopped. -/
inductive CamExit where
  | frameFail : CamExit
  | quitKey : CamExit
  | interrupted : CamExit
deriving DecidableEq, Repr

/-- The key dispatch of CameraApp.run (camera_app.py lines 455-468).
Returns the new state, the actions taken, and whether the loop breaks. -/
def camHandleKey (env : DetectEnv) (pref : String) (now : Nat) (key : Nat)
    (st : CamApp) : CamApp × List CamEvent × Bool :=
  if key = 32 then (st, [CamEvent.savedImage], false)
  else if key = 118 ∨ key = 86 then
    if st.is_recording then (stop_video_recording st, [CamEvent.recStop], false)
    else (start_video_recording now st, [CamEvent.recStart], false)
  else if key = 116 ∨ key = 84 then
    ({ st with show_status := !st.show_status }, [CamEvent.overlayToggle], false)
  else if key = 99 ∨ key = 67 then
    let r := switch_camera env pref st
    (r.1, [CamEvent.camSwitchTried r.2], false)
  else if key = 27 ∨ key = 113 ∨ key = 81 then (st, [], true)
  else (st, [], false)

/-- One unit of input to a loop iteration: either a poll (did the frame
read succeed, the current time, the key from waitKey) or a keyboard
interrupt delivered during the iteration. -/
inductive CamIterInput where
  | frame : Bool → Nat → Nat → CamIterInput
  | interrupt : CamIterInput
deriving DecidableEq, Repr

/-- Result of one iteration of CameraApp.run's while loop. -/
structure CamIterOut where
  state : CamApp
  events : List CamEvent
  exitCause : Option CamExit
deriving DecidableEq, Repr

/-- One iteration of the while loop of CameraApp.run (camera_app.py lines
433-468): a failed frame read prints an error and BREAKS the loop;
otherwise the fps counter is updated, the frame is written to the video
writer when a USB recording is live, and the key is dispatched.  A camera
switch triggered by the key re-runs detection, whose outcome is the one
the currently held handles admit (envAt). -/
def camIter (hw : HwEnv) (pref : String) (inp : CamIterInput)
    (st : CamApp) : CamIterOut :=
  match inp with
  | CamIterInput.interrupt => ⟨st, [], some CamExit.interrupted⟩
  | CamIterInput.frame ok now key =>
    if ok = false then ⟨st, [CamEvent.frameError], some CamExit.frameFail⟩
    else
      let st1 := update_fps now st
      let evs :=
        if st1.is_recording = true ∧ st1.camera_type = some CamType.usb ∧
            st1.video_writer.isSome = true then [CamEvent.wroteFrame] else []
      let r := camHandleKey (envAt hw st1) pref now key st1
      ⟨r.1, evs ++ r.2.1, if r.2.2 then some CamExit.quitKey else none⟩

/-- The while loop of CameraApp.run, iterated over a finite input stream;
the state at loop exit is returned (input exhaustion stands for an
eventual interrupt or quit). -/
def camLoop (hw : HwEnv) (pref : String) :
    List CamIterInput → CamApp → CamApp
  | [], st => st
  | inp :: rest, st =>
    let r := camIter hw pref inp st
    match r.exitCause with
    | some _ => r.state
    | none => camLoop hw pref rest r.state

/-- CameraApp.run (camera_app.py lines 415-474): an initialisation failure
returns at once (fatal, no loop); otherwise the loop runs inside
try/except KeyboardInterrupt/finally, so cleanup executes on every exit
path of the loop. -/
def camRun (hw : HwEnv) (pref : String) (inputs : List CamIterInput)
    (st0 : CamApp) : CamApp :=
  let r := initialize_camera (envAt hw st0) pref st0
  if r.2 then cleanup (camLoop hw pref inputs r.1) else r.1

/-! ## USBCameraApp and PiCameraApp -/

/-- The mutable fields of a USBCameraApp object. -/
structure USBApp where
  camera : Bool
  is_recording : Bool
  video_writer : Option Bool
  recording_start_time : Nat
deriving DecidableEq, Repr

/-- USBCameraApp.start_video_recording (usb_camera_app.py lines 166-194):
the cv2.VideoWriter is created and recording starts only if it reports
isOpened(); otherwise the writer is discarded and the app stays idle. -/
def usbStartRecording (writerOpens : Bool) (now : Nat) (st : USBApp) : USBApp :=
  if st.is_recording then st
  else if writerOpens then
    { st with video_writer := some true, is_recording := true,
              recording_start_time := now }
  else { st with video_writer := none }

/-- USBCameraApp.stop_video_recording (usb_camera_app.py lines 196-210). -/
def usbStopRecording (st : USBApp) : USBApp :=
  if st.is_recording = false then st
  else { st with video_writer := none, is_recording := false }

/-- The key dispatch of USBCameraApp.run (usb_camera_app.py lines 269-279):
only lowercase q, space and lowercase v are recognised. -/
def usbHandleKey (writerOpens : Bool) (now : Nat) (key : Nat) (st : USBApp) :
    USBApp × List CamEvent × Bool :=
  if key = 113 then (st, [], true)
  else if key = 32 then (st, [CamEvent.savedImage], false)
  else if key = 118 then
    if st.is_recording then (usbStopRecording st, [CamEvent.recStop], false)
    else (usbStartRecording writerOpens now st, [CamEvent.recStart], false)
  else (st, [], false)

/-- One iteration of the while loop of USBCameraApp.run (usb_camera_app.py
lines 251-279): a failed frame read prints, sleeps 0.1 s and CONTINUES the
loop. -/
def usbIter (writerOpens : Bool) (inp : CamIterInput) (st : USBApp) :
    USBApp × List CamEvent × Option CamExit :=
  match inp with
  | CamIterInput.interrupt => (st, [], some CamExit.interrupted)
  | CamIterInput.frame ok now key =>
    if ok = false then (st, [CamEvent.frameError], none)
    else
      let evs :=
        if st.is_recording = true ∧ st.video_writer.isSome = true then
          [CamEvent.wroteFrame] else []
      let r := usbHandleKey writerOpens now key st
      (r.1, evs ++ r.2.1, if r.2.2 then some CamExit.quitKey else none)

/-- The while loop of USBCameraApp.run over a finite input stream. -/
def usbLoop (writerOpens : Bool) : List CamIterInput → USBApp → USBApp
  | [], st => st
  | inp :: rest, st =>
    let r := usbIter writerOpens inp st
    match r.2.2 with
    | some _ => r.1
    | none => usbLoop writerOpens rest r.1

/-- USBCameraApp.cleanup (usb_camera_app.py lines 288-298): stop a live
recording, then release the camera handle. -/
def usbCleanup (st : USBApp) : USBApp :=
  let st1 := if st.is_recording then usbStopRecording st else st
  if st1.camera then { st1 with camera := false } else st1

/-- USBCameraApp.run (usb_camera_app.py lines 238-286): initialisation
failure returns at once; otherwise the loop runs inside try/except/finally
and cleanup executes on every exit path. -/
def usbRun (initOk writerOpens : Bool) (inputs : List CamIterInput)
    (st0 : USBApp) : USBApp :=
  if initOk then usbCleanup (usbLoop writerOpens inputs { st0 with camera := true })
  else st0

/-- The mutable fields of a PiCameraApp object (recording goes through the
camera object itself; there is no separate writer handle). -/
structure PiApp where
  camera : Bool
  is_recording : Bool
  recording_start_time : Nat
deriving DecidableEq, Repr

/-- PiCameraApp.start_video_recording (pi_camera_app.py lines 161-176):
camera.start_recording may raise, in which case the handler leaves the
app idle. -/
def piStartRecording (startOk : Bool) (now : Nat) (st : PiApp) : PiApp :=
  if st.is_recording then st
  else if startOk then
    { st with is_recording := true, recording_start_time := now }
  else st

/-- PiCameraApp.stop_video_recording (pi_camera_app.py lines 178-189). -/
def piStopRecording (st : PiApp) : PiApp :=
  if st.is_recording = false then st
  else { st with is_recording := false }

/-- The key dispatch of PiCameraApp.run (pi_camera_app.py lines 244-254):
only lowercase q, space and lowercase v are recognised. -/
def piHandleKey (startOk : Bool) (now : Nat) (key : Nat) (st : PiApp) :
    PiApp × List CamEvent × Bool :=
  if key = 113 then (st, [], true)
  else if key = 32 then (st, [CamEvent.savedImage], false)
  else if key = 118 then
    if st.is_recording then (piStopRecording st, [CamEvent.recStop], false)
    else (piStartRecording startOk now st, [CamEvent.recStart], false)
  else (st, [], false)

/-- One iteration of the while loop of PiCameraApp.run (pi_camera_app.py
lines 230-254): a failed frame read prints, sleeps 0.1 s and CONTINUES. -/
def piIter (startOk : Bool) (inp : CamIterInput) (st : PiApp) :
    PiApp × List CamEvent × Option CamExit :=
  match inp with
  | CamIterInput.interrupt => (st, [], some CamExit.interrupted)
  | CamIterInput.frame ok now key =>
    if ok = false then (st, [CamEvent.frameError], none)
    else
      let r := piHandleKey startOk now key st
      (r.1, r.2.1, if r.2.2 then some CamExit.quitKey else none)

/-! ## Lemmas about association-list lookup and dict.update -/

/-- Executable kind-compatibility check matching Compat: true exactly when
no dict.update call in CameraApp.load_config would raise. -/
def compatB (d fileCfg : List (String × JValue)) : Bool :=
  d.all (fun p =>
    match p.2, lookupJ p.1 fileCfg with
    | JValue.obj _, some (JValue.obj _) => true
    | JValue.obj _, some _ => false
    | _, _ => true)

theorem compatB_compat {d fileCfg : List (String × JValue)}
    (h : compatB d fileCfg = true) : Compat d fileCfg := by
  intro p hp dsub hdv fv hfv
  have hb := List.all_eq_true.mp h p hp
  rw [hdv, hfv] at hb
  cases fv with
  | obj fsub => exact ⟨fsub, rfl⟩
  | null => exact absurd hb (by simp)
  | bool b => exact absurd hb (by simp)
  | num n => exact absurd hb (by simp)
  | str s => exact absurd hb (by simp)

theorem lookupJ_isSome_of_mem {d : List (String × JValue)} {p : String × JValue}
    (h : p ∈ d) : (lookupJ p.1 d).isSome = true := by
  induction d with
  | nil => cases h
  | cons q rest ih =>
    simp only [lookupJ]
    by_cases hq : q.1 = p.1
    · rw [if_pos hq]; rfl
    · rw [if_neg hq]
      rcases List.mem_cons.mp h with h1 | h2
      · exact absurd (h1 ▸ rfl) hq
      · exact ih h2

theorem lookupJ_of_mem_nodup {d : List (String × JValue)} {p : String × JValue}
    (hn : (d.map Prod.fst).Nodup) (h : p ∈ d) : lookupJ p.1 d = some p.2 := by
  induction d with
  | nil => cases h
  | cons q rest ih =>
    rw [List.map_cons, List.nodup_cons] at hn
    rcases List.mem_cons.mp h with h1 | h2
    · subst h1; simp [lookupJ]
    · have hq : q.1 ≠ p.1 := fun he =>
        hn.1 (he ▸ List.mem_map_of_mem Prod.fst h2)
      simp only [lookupJ]
      rw [if_neg hq]
      exact ih hn.2 h2

theorem mem_of_lookupJ {d : List (String × JValue)} {k : String} {v : JValue}
    (h : lookupJ k d = some v) : (k, v) ∈ d := by
  induction d with
  | nil => exact absurd h (by simp [lookupJ])
  | cons q rest ih =>
    obtain ⟨a, b⟩ := q
    simp only [lookupJ] at h
    by_cases hq : a = k
    · rw [if_pos hq] at h
      injection h with h'
      exact List.mem_cons.mpr (Or.inl (by rw [hq, h']))
    · rw [if_neg hq] at h
      exact List.mem_cons.mpr (Or.inr (ih h))

theorem lookupJ_append (k : String) (xs ys : List (String × JValue)) :
    lookupJ k (xs ++ ys) =
      match lookupJ k xs with
      | some v => some v
      | none => lookupJ k ys := by
  induction xs with
  | nil => simp [lookupJ]
  | cons p rest ih =>
    simp only [List.cons_append, lookupJ]
    by_cases hp : p.1 = k
    · rw [if_pos hp, if_pos hp]
    · rw [if_neg hp, if_neg hp]
      exact ih

theorem lookupJ_filter (k : String) (pred : String → Bool)
    (c : List (String × JValue)) :
    lookupJ k (c.filter (fun q => pred q.1)) =
      if pred k then lookupJ k c else none := by
  induction c with
  | nil => simp [lookupJ]
  | cons p rest ih =>
    by_cases hp : p.1 = k
    · subst hp
      cases hpk : pred p.1 with
      | true =>
        rw [List.filter_cons_of_pos (by simpa using hpk)]
        simp [lookupJ, hpk]
      | false =>
        rw [List.filter_cons_of_neg (by simpa using hpk)]
        rw [ih, hpk]
        simp
    · cases hpk : pred p.1 with
      | true =>
        rw [List.filter_cons_of_pos (by simpa using hpk)]
        simp only [lookupJ]
        rw [if_neg hp, ih, if_neg hp]
      | false =>
        rw [List.filter_cons_of_neg (by simpa using hpk)]
        rw [ih]
        simp only [lookupJ]
        rw [if_neg hp]

theorem lookupJ_update_map (k : String) (c d : List (String × JValue)) :
    lookupJ k (d.map (fun p =>
        match lookupJ p.1 c with
        | some v => (p.1, v)
        | none => p)) =
      (lookupJ k d).map (fun dv =>
        match lookupJ k c with
        | some v => v
        | none => dv) := by
  induction d with
  | nil => simp [lookupJ]
  | cons p rest ih =>
    by_cases hp : p.1 = k
    · subst hp
      cases hc : lookupJ p.1 c with
      | none => simp [lookupJ, hc]
      | some v => simp [lookupJ, hc]
    · cases hc : lookupJ p.1 c with
      | none =>
        simp only [List.map_cons, hc, lookupJ]
        rw [if_neg hp, if_neg hp, ih]
      | some v =>
        simp only [List.map_cons, hc, lookupJ]
        rw [if_neg hp, if_neg hp, ih]

theorem lookupJ_dict_update (k : String) (d c : List (String × JValue)) :
    lookupJ k (dict_update d c) =
      match lookupJ k c with
      | some v => some v
      | none => lookupJ k d := by
  unfold dict_update
  rw [lookupJ_append, lookupJ_update_map]
  cases hd : lookupJ k d with
  | some dv =>
    cases hc : lookupJ k c with
    | some v => simp
    | none => simp
  | none =>
    rw [lookupJ_filter k (fun s => (lookupJ s d).isNone) c, hd]
    simp only [Option.map_none', Option.isNone_none, if_true]
    cases hc : lookupJ k c with
    | some v => simp
    | none => simp

theorem lookupJ_map_of_mem (g : String × JValue → JValue)
    {d : List (String × JValue)} {p : String × JValue}
    (hn : (d.map Prod.fst).Nodup) (hp : p ∈ d) :
    lookupJ p.1 (d.map (fun q => (q.1, g q))) = some (g p) := by
  induction d with
  | nil => cases hp
  | cons q rest ih =>
    rw [List.map_cons, List.nodup_cons] at hn
    rcases List.mem_cons.mp hp with h1 | h2
    · subst h1; simp [lookupJ]
    · have hq : q.1 ≠ p.1 := fun he =>
        hn.1 (he ▸ List.mem_map_of_mem Prod.fst h2)
      simp only [List.map_cons, lookupJ]
      rw [if_neg hq]
      exact ih hn.2 h2

theorem dict_update_self {d : List (String × JValue)}
    (hn : (d.map Prod.fst).Nodup) : dict_update d d = d := by
  unfold dict_update
  have h1 : d.map (fun p =>
      match lookupJ p.1 d with
      | some v => (p.1, v)
      | none => p) = d := by
    conv_rhs => rw [← List.map_id d]
    apply List.map_congr_left
    intro p hp
    show (match lookupJ p.1 d with
      | some v => (p.1, v)
      | none => p) = id p
    rw [lookupJ_of_mem_nodup hn hp]
    rfl
  have h2 : d.filter (fun q => (lookupJ q.1 d).isNone) = [] := by
    rw [List.filter_eq_nil_iff]
    intro a ha
    have hs := lookupJ_isSome_of_mem ha
    rcases Option.isSome_iff_exists.mp hs with ⟨v, hv⟩
    rw [hv]
    simp
  rw [h1, h2, List.append_nil]

theorem dict_update_idem {d : List (String × JValue)}
    (hn : (d.map Prod.fst).Nodup) (c : List (String × JValue)) :
    dict_update d (dict_update d c) = dict_update d c := by
  have hmap : d.map (fun p =>
      match lookupJ p.1 (dict_update d c) with
      | some v => (p.1, v)
      | none => p) =
    d.map (fun p =>
      match lookupJ p.1 c with
      | some v => (p.1, v)
      | none => p) := by
    apply List.map_congr_left
    intro p hp
    rw [lookupJ_dict_update]
    have hd : lookupJ p.1 d = some p.2 := lookupJ_of_mem_nodup hn hp
    cases hc : lookupJ p.1 c with
    | some v => simp
    | none => simp [hd]
  have hfil : (dict_update d c).filter (fun q => (lookupJ q.1 d).isNone) =
      c.filter (fun q => (lookupJ q.1 d).isNone) := by
    show (d.map (fun (p : String × JValue) =>
        match lookupJ p.1 c with
        | some v => (p.1, v)
        | none => p) ++
      c.filter (fun (q : String × JValue) => (lookupJ q.1 d).isNone)).filter
        (fun (q : String × JValue) => (lookupJ q.1 d).isNone) = _
    rw [List.filter_append]
    have h1 : (d.map (fun p =>
        match lookupJ p.1 c with
        | some v => (p.1, v)
        | none => p)).filter (fun q => (lookupJ q.1 d).isNone) = [] := by
      rw [List.filter_eq_nil_iff]
      intro a ha
      rcases List.mem_map.mp ha with ⟨p, hp, hpa⟩
      have ha1 : a.1 = p.1 := by
        cases hc : lookupJ p.1 c with
        | some v => rw [hc] at hpa; rw [← hpa]
        | none => rw [hc] at hpa; rw [← hpa]
      have hs := lookupJ_isSome_of_mem hp
      rcases Option.isSome_iff_exists.mp hs with ⟨v, hv⟩
      rw [ha1, hv]
      simp
    have h2 : (c.filter (fun q => (lookupJ q.1 d).isNone)).filter
        (fun q => (lookupJ q.1 d).isNone) =
        c.filter (fun q => (lookupJ q.1 d).isNone) := by
      rw [List.filter_filter]
      congr 1
      funext a
      rw [Bool.and_self]
    rw [h1, h2, List.nil_append]
  show d.map (fun p =>
      match lookupJ p.1 (dict_update d c) with
      | some v => (p.1, v)
      | none => p) ++
    (dict_update d c).filter (fun q => (lookupJ q.1 d).isNone) = _
  rw [hmap, hfil]
  rfl

/-! ## Properties of the CameraApp configuration merge -/

/-- The per-key value computed by the merge loop when dict.update does not
raise. -/
def mergeVal (dv : JValue) : Option JValue → JValue
  | none => dv
  | some fv =>
    match dv, fv with
    | JValue.obj dsub, JValue.obj fsub => JValue.obj (dict_update dsub fsub)
    | JValue.obj dsub, _ => JValue.obj dsub
    | _, _ => fv

theorem camMerge_eq_map {d fileCfg : List (String × JValue)}
    (hc : Compat d fileCfg) :
    camMergeConfig d fileCfg =
      d.map (fun p => (p.1, mergeVal p.2 (lookupJ p.1 fileCfg))) := by
  induction d with
  | nil => rfl
  | cons p rest ih =>
    obtain ⟨k, dv⟩ := p
    have hrest : Compat rest fileCfg := fun q hq =>
      hc q (List.mem_cons_of_mem _ hq)
    simp only [camMergeConfig, List.map_cons]
    cases hf : lookupJ k fileCfg with
    | none =>
      rw [ih hrest]
      rfl
    | some fv =>
      cases dv with
      | obj dsub =>
        obtain ⟨fsub, rfl⟩ :=
          hc (k, JValue.obj dsub) (List.mem_cons_self _ _) dsub rfl fv hf
        rw [ih hrest]
        rfl
      | null => rw [ih hrest]; rfl
      | bool b => rw [ih hrest]; rfl
      | num n => rw [ih hrest]; rfl
      | str s => rw [ih hrest]; rfl

theorem camMerge_keys (d fileCfg : List (String × JValue)) (k : String)
    (h : (lookupJ k d).isSome = true) :
    (lookupJ k (camMergeConfig d fileCfg)).isSome = true := by
  induction d with
  | nil => exact absurd h (by simp [lookupJ])
  | cons p rest ih =>
    obtain ⟨k0, dv⟩ := p
    simp only [lookupJ] at h
    simp only [camMergeConfig]
    cases hf : lookupJ k0 fileCfg with
    | none =>
      simp only [lookupJ]
      by_cases hk : k0 = k
      · rw [if_pos hk]; rfl
      · rw [if_neg hk]
        rw [if_neg hk] at h
        exact ih h
    | some fv =>
      cases dv with
      | obj dsub =>
        cases fv with
        | obj fsub =>
          simp only [lookupJ]
          by_cases hk : k0 = k
          · rw [if_pos hk]; rfl
          · rw [if_neg hk]
            rw [if_neg hk] at h
            exact ih h
        | null =>
          simp only [lookupJ]
          by_cases hk : k0 = k
          · rw [if_pos hk]; rfl
          · rw [if_neg hk]; rw [if_neg hk] at h; exact h
        | bool b =>
          simp only [lookupJ]
          by_cases hk : k0 = k
          · rw [if_pos hk]; rfl
          · rw [if_neg hk]; rw [if_neg hk] at h; exact h
        | num n =>
          simp only [lookupJ]
          by_cases hk : k0 = k
          · rw [if_pos hk]; rfl
          · rw [if_neg hk]; rw [if_neg hk] at h; exact h
        | str s =>
          simp only [lookupJ]
          by_cases hk : k0 = k
          · rw [if_pos hk]; rfl
          · rw [if_neg hk]; rw [if_neg hk] at h; exact h
      | null =>
        simp only [lookupJ]
        by_cases hk : k0 = k
        · rw [if_pos hk]; rfl
        · rw [if_neg hk]; rw [if_neg hk] at h; exact ih h
      | bool b =>
        simp only [lookupJ]
        by_cases hk : k0 = k
        · rw [if_pos hk]; rfl
        · rw [if_neg hk]; rw [if_neg hk] at h; exact ih h
      | num n =>
        simp only [lookupJ]
        by_cases hk : k0 = k
        · rw [if_pos hk]; rfl
        · rw [if_neg hk]; rw [if_neg hk] at h; exact ih h
      | str s =>
        simp only [lookupJ]
        by_cases hk : k0 = k
        · rw [if_pos hk]; rfl
        · rw [if_neg hk]; rw [if_neg hk] at h; exact ih h

theorem camMerge_nested (d fileCfg : List (String × JValue)) (k : String)
    (dsub : List (String × JValue))
    (h : lookupJ k d = some (JValue.obj dsub)) :
    ∃ rsub, lookupJ k (camMergeConfig d fileCfg) = some (JValue.obj rsub) ∧
      ∀ k2, (lookupJ k2 dsub).isSome = true →
        (lookupJ k2 rsub).isSome = true := by
  induction d with
  | nil => exact absurd h (by simp [lookupJ])
  | cons p rest ih =>
    obtain ⟨k0, dv⟩ := p
    simp only [lookupJ] at h
    by_cases hk : k0 = k
    · rw [if_pos hk] at h
      injection h with h'
      subst h'
      simp only [camMergeConfig]
      cases hf : lookupJ k0 fileCfg with
      | none =>
        refine ⟨dsub, ?_, fun k2 hk2 => hk2⟩
        simp only [lookupJ]
        rw [if_pos hk]
      | some fv =>
        cases fv with
        | obj fsub =>
          refine ⟨dict_update dsub fsub, ?_, ?_⟩
          · simp only [lookupJ]
            rw [if_pos hk]
          · intro k2 hk2
            rw [lookupJ_dict_update]
            cases hc : lookupJ k2 fsub with
            | some v => rfl
            | none => exact hk2
        | null =>
          refine ⟨dsub, ?_, fun k2 hk2 => hk2⟩
          simp only [lookupJ]
          rw [if_pos hk]
        | bool b =>
          refine ⟨dsub, ?_, fun k2 hk2 => hk2⟩
          simp only [lookupJ]
          rw [if_pos hk]
        | num n =>
          refine ⟨dsub, ?_, fun k2 hk2 => hk2⟩
          simp only [lookupJ]
          rw [if_pos hk]
        | str s =>
          refine ⟨dsub, ?_, fun k2 hk2 => hk2⟩
          simp only [lookupJ]
          rw [if_pos hk]
    · rw [if_neg hk] at h
      obtain ⟨rsub, hr, hkeys⟩ := ih h
      simp only [camMergeConfig]
      cases hf : lookupJ k0 fileCfg with
      | none =>
        refine ⟨rsub, ?_, hkeys⟩
        simp only [lookupJ]
        rw [if_neg hk]
        exact hr
      | some fv =>
        cases dv with
        | obj dsub0 =>
          cases fv with
          | obj fsub =>
            refine ⟨rsub, ?_, hkeys⟩
            simp only [lookupJ]
            rw [if_neg hk]
            exact hr
          | null =>
            refine ⟨dsub, ?_, fun k2 hk2 => hk2⟩
            simp only [lookupJ]
            rw [if_neg hk]
            exact h
          | bool b =>
            refine ⟨dsub, ?_, fun k2 hk2 => hk2⟩
            simp only [lookupJ]
            rw [if_neg hk]
            exact h
          | num n =>
            refine ⟨dsub, ?_, fun k2 hk2 => hk2⟩
            simp only [lookupJ]
            rw [if_neg hk]
            exact h
          | str s =>
            refine ⟨dsub, ?_, fun k2 hk2 => hk2⟩
            simp only [lookupJ]
            rw [if_neg hk]
            exact h
        | null =>
          refine ⟨rsub, ?_, hkeys⟩
          simp only [lookupJ]
          rw [if_neg hk]
          exact hr
        | bool b =>
          refine ⟨rsub, ?_, hkeys⟩
          simp only [lookupJ]
          rw [if_neg hk]
          exact hr
        | num n =>
          refine ⟨rsub, ?_, hkeys⟩
          simp only [lookupJ]
          rw [if_neg hk]
          exact hr
        | str s =>
          refine ⟨rsub, ?_, hkeys⟩
          simp only [lookupJ]
          rw [if_neg hk]
          exact hr

theorem camMerge_precedence_flat {d fileCfg : List (String × JValue)}
    (hn : (d.map Prod.fst).Nodup) (k : String) (dv fv : JValue)
    (hd : lookupJ k d = some dv) (hobj : ∀ dsub, dv ≠ JValue.obj dsub)
    (hf : lookupJ k fileCfg = some fv) (hc : Compat d fileCfg) :
    lookupJ k (camMergeConfig d fileCfg) = some fv := by
  have hmem : (k, dv) ∈ d := mem_of_lookupJ hd
  rw [camMerge_eq_map hc]
  have := lookupJ_map_of_mem
    (fun q => mergeVal q.2 (lookupJ q.1 fileCfg)) hn hmem
  simp only at this
  rw [this, hf]
  cases dv with
  | obj dsub => exact absurd rfl (hobj dsub)
  | null => rfl
  | bool b => cases fv <;> rfl
  | num n => cases fv <;> rfl
  | str s => cases fv <;> rfl

theorem camMerge_precedence_nested {d fileCfg : List (String × JValue)}
    (hn : (d.map Prod.fst).Nodup) (k k2 : String)
    (dsub fsub : List (String × JValue)) (v2 : JValue)
    (hd : lookupJ k d = some (JValue.obj dsub))
    (hf : lookupJ k fileCfg = some (JValue.obj fsub))
    (h2 : lookupJ k2 fsub = some v2) (hc : Compat d fileCfg) :
    ∃ rsub, lookupJ k (camMergeConfig d fileCfg) = some (JValue.obj rsub) ∧
      lookupJ k2 rsub = some v2 := by
  have hmem : (k, JValue.obj dsub) ∈ d := mem_of_lookupJ hd
  rw [camMerge_eq_map hc]
  have := lookupJ_map_of_mem
    (fun q => mergeVal q.2 (lookupJ q.1 fileCfg)) hn hmem
  simp only at this
  rw [this, hf]
  refine ⟨dict_update dsub fsub, rfl, ?_⟩
  rw [lookupJ_dict_update, h2]

theorem camMerge_idem {d fileCfg : List (String × JValue)}
    (hc : Compat d fileCfg) (hn : NodupNested d) :
    camMergeConfig d (camMergeConfig d fileCfg) = camMergeConfig d fileCfg := by
  have hr : Compat d (camMergeConfig d fileCfg) := by
    intro p hp dsub hdv fv hfv
    rw [camMerge_eq_map hc] at hfv
    have hlk := lookupJ_map_of_mem
      (fun q => mergeVal q.2 (lookupJ q.1 fileCfg)) hn.1 hp
    simp only at hlk
    rw [hlk] at hfv
    injection hfv with hfv'
    subst hfv'
    rw [hdv]
    cases hf : lookupJ p.1 fileCfg with
    | none => exact ⟨dsub, rfl⟩
    | some f =>
      obtain ⟨fsub, rfl⟩ := hc p hp dsub hdv f hf
      exact ⟨dict_update dsub fsub, rfl⟩
  rw [camMerge_eq_map hr, camMerge_eq_map hc]
  apply List.map_congr_left
  intro p hp
  have hlk := lookupJ_map_of_mem
    (fun q => mergeVal q.2 (lookupJ q.1 fileCfg)) hn.1 hp
  simp only at hlk
  rw [hlk]
  congr 1
  cases hf : lookupJ p.1 fileCfg with
  | none =>
    cases hdv : p.2 with
    | obj dsub =>
      show JValue.obj (dict_update dsub dsub) = JValue.obj dsub
      rw [dict_update_self (hn.2 p hp dsub hdv)]
    | null => rfl
    | bool b => rfl
    | num n => rfl
    | str s => rfl
  | some fv =>
    cases hdv : p.2 with
    | obj dsub =>
      obtain ⟨fsub, rfl⟩ := hc p hp dsub hdv fv hf
      show JValue.obj (dict_update dsub (dict_update dsub fsub)) =
        JValue.obj (dict_update dsub fsub)
      rw [dict_update_idem (hn.2 p hp dsub hdv)]
    | null => rfl
    | bool b => cases fv <;> rfl
    | num n => cases fv <;> rfl
    | str s => cases fv <;> rfl

theorem lookupJ_usbMerge (k : String) (d c : List (String × JValue)) :
    lookupJ k (usbMergeConfig d c) =
      match lookupJ k c with
      | some v => some v
      | none => lookupJ k d := by
  unfold usbMergeConfig
  rw [lookupJ_append]
  cases hc : lookupJ k c with
  | some v => rfl
  | none =>
    rw [lookupJ_filter k (fun s => (lookupJ s c).isNone) d, hc]
    rfl

theorem usbMerge_idem (d c : List (String × JValue)) :
    usbMergeConfig d (usbMergeConfig d c) = usbMergeConfig d c := by
  have h : d.filter
      (fun p => (lookupJ p.1 (usbMergeConfig d c)).isNone) = [] := by
    rw [List.filter_eq_nil_iff]
    intro p hp
    rw [lookupJ_usbMerge]
    cases hc : lookupJ p.1 c with
    | some v => simp
    | none =>
      have hs := lookupJ_isSome_of_mem hp
      rcases Option.isSome_iff_exists.mp hs with ⟨v, hv⟩
      rw [hv]
      simp
  show usbMergeConfig d c ++ d.filter
      (fun p => (lookupJ p.1 (usbMergeConfig d c)).isNone) = usbMergeConfig d c
  rw [h, List.append_nil]

theorem camDefault_nodup (home : String) : NodupNested (camDefaultConfig home) := by
  constructor
  · show (["camera", "video", "save_paths", "display"] : List String).Nodup
    decide
  · intro p hp dsub hdv
    simp only [camDefaultConfig, List.mem_cons, List.mem_singleton] at hp
    rcases hp with rfl | rfl | rfl | rfl | h
    · injection hdv with h'
      subst h'
      show (["width", "height", "fps", "auto_detect", "preferred_index",
        "preferred_type"] : List String).Nodup
      decide
    · injection hdv with h'
      subst h'
      show (["codec", "quality", "fps"] : List String).Nodup
      decide
    · injection hdv with h'
      subst h'
      show (["images", "videos"] : List String).Nodup
      decide
    · injection hdv with h'
      subst h'
      show (["show_fps", "show_status", "show_timestamp"] : List String).Nodup
      decide
    · cases h

/-! ## Claim C1: configuration merge -/

/-- Claim C1, counterexample.  The claim asserts that for every partial
configuration file the config returned by load_config contains every
nested key of the built-in defaults.  For USBCameraApp.load_config (and
the identical PiCameraApp.load_config) this fails: a file providing a
partial camera section replaces the whole default section, dropping the
default nested key "height" that the defaults contain. -/
theorem c1_counterexample :
    lookup2 "camera" "height"
        (usbLoadConfig "/home/pi"
          (some [("camera", JValue.obj [("width", JValue.num 640)])])) = none ∧
    (lookup2 "camera" "height" (usbDefaultConfig "/home/pi")).isSome = true :=
  ⟨rfl, rfl⟩

/-- Claim C1, amended.  CameraApp.load_config keeps every top-level and
nested default key, lets file values win (for files on which dict.update
does not raise, i.e. object-valued sections), and merging its result with
the defaults again changes nothing.  USBCameraApp/PiCameraApp.load_config
keep every top-level default key with file precedence and are likewise
idempotent, but a file's top-level section replaces the default section
wholesale, so nested default keys can be dropped there. -/
theorem c1_claim :
    ∀ (home : String) (fileCfg : List (String × JValue)),
      (∀ k, (lookupJ k (camDefaultConfig home)).isSome = true →
        (lookupJ k (camLoadConfig home (some fileCfg))).isSome = true)
      ∧ (∀ k dsub,
          lookupJ k (camDefaultConfig home) = some (JValue.obj dsub) →
          ∃ rsub,
            lookupJ k (camLoadConfig home (some fileCfg)) =
              some (JValue.obj rsub) ∧
            ∀ k2, (lookupJ k2 dsub).isSome = true →
              (lookupJ k2 rsub).isSome = true)
      ∧ (Compat (camDefaultConfig home) fileCfg →
          (∀ k dv fv, lookupJ k (camDefaultConfig home) = some dv →
            (∀ dsub, dv ≠ JValue.obj dsub) → lookupJ k fileCfg = some fv →
            lookupJ k (camLoadConfig home (some fileCfg)) = some fv)
          ∧ (∀ k k2 dsub fsub v2,
              lookupJ k (camDefaultConfig home) = some (JValue.obj dsub) →
              lookupJ k fileCfg = some (JValue.obj fsub) →
              lookupJ k2 fsub = some v2 →
              ∃ rsub,
                lookupJ k (camLoadConfig home (some fileCfg)) =
                  some (JValue.obj rsub) ∧ lookupJ k2 rsub = some v2)
          ∧ camMergeConfig (camDefaultConfig home)
              (camMergeConfig (camDefaultConfig home) fileCfg) =
              camMergeConfig (camDefaultConfig home) fileCfg)
      ∧ (∀ k, (lookupJ k (usbDefaultConfig home)).isSome = true →
          (lookupJ k (usbLoadConfig home (some fileCfg))).isSome = true)
      ∧ (∀ k fv, lookupJ k fileCfg = some fv →
          lookupJ k (usbLoadConfig home (some fileCfg)) = some fv)
      ∧ usbMergeConfig (usbDefaultConfig home)
          (usbMergeConfig (usbDefaultConfig home) fileCfg) =
          usbMergeConfig (usbDefaultConfig home) fileCfg := by
  intro home fileCfg
  refine ⟨?_, ?_, ?_, ?_, ?_, ?_⟩
  · intro k hk
    exact camMerge_keys _ fileCfg k hk
  · intro k dsub hd
    exact camMerge_nested _ fileCfg k dsub hd
  · intro hc
    refine ⟨?_, ?_, ?_⟩
    · intro k dv fv hd hobj hf
      exact camMerge_precedence_flat (camDefault_nodup home).1 k dv fv
        hd hobj hf hc
    · intro k k2 dsub fsub v2 hd hf h2
      exact camMerge_precedence_nested (camDefault_nodup home).1 k k2
        dsub fsub v2 hd hf h2 hc
    · exact camMerge_idem hc (camDefault_nodup home)
  · intro k hk
    show (lookupJ k (usbMergeConfig (usbDefaultConfig home) fileCfg)).isSome = true
    rw [lookupJ_usbMerge]
    cases hc : lookupJ k fileCfg with
    | some v => rfl
    | none => exact hk
  · intro k fv hf
    show lookupJ k (usbMergeConfig (usbDefaultConfig home) fileCfg) = some fv
    rw [lookupJ_usbMerge, hf]
  · exact usbMerge_idem _ fileCfg

/-- Claim C1, witness: the amended theorem applied to a concrete partial
file providing camera.fps only. -/
theorem c1_witness :
    (lookupJ "display" (camLoadConfig "/home/pi"
        (some [("camera", JValue.obj [("fps", JValue.num 15)])]))).isSome = true ∧
    camMergeConfig (camDefaultConfig "/home/pi")
        (camMergeConfig (camDefaultConfig "/home/pi")
          [("camera", JValue.obj [("fps", JValue.num 15)])]) =
      camMergeConfig (camDefaultConfig "/home/pi")
        [("camera", JValue.obj [("fps", JValue.num 15)])] := by
  constructor
  · exact (c1_claim "/home/pi"
      [("camera", JValue.obj [("fps", JValue.num 15)])]).1 "display" rfl
  · exact ((c1_claim "/home/pi"
      [("camera", JValue.obj [("fps", JValue.num 15)])]).2.2.1
        (compatB_compat (by decide))).2.2

/-! ## Claim C3: saved image file names -/

theorem digitChar_inj {a b : Nat} (ha : a < 10) (hb : b < 10)
    (h : Nat.digitChar a = Nat.digitChar b) : a = b := by
  interval_cases a <;> interval_cases b <;> revert h <;> decide

theorem timestampChars_inj {t1 t2 : PyDateTime} (v1 : ValidDT t1)
    (v2 : ValidDT t2) (h : timestampChars t1 = timestampChars t2) :
    sameSecond t1 t2 := by
  obtain ⟨y1a, y1b, mo1a, mo1b, d1a, d1b, h1a, mi1a, s1a, -⟩ := v1
  obtain ⟨y2a, y2b, mo2a, mo2b, d2a, d2b, h2a, mi2a, s2a, -⟩ := v2
  simp only [timestampChars, four_digits, two_digits, List.cons_append,
    List.nil_append, List.cons.injEq, and_true] at h
  obtain ⟨e1, e2, e3, e4, e5, e6, e7, e8, -, e9, e10, e11, e12, e13, e14⟩ := h
  have hy1 := digitChar_inj (by omega) (by omega) e1
  have hy2 := digitChar_inj (by omega) (by omega) e2
  have hy3 := digitChar_inj (by omega) (by omega) e3
  have hy4 := digitChar_inj (by omega) (by omega) e4
  have hmo1 := digitChar_inj (by omega) (by omega) e5
  have hmo2 := digitChar_inj (by omega) (by omega) e6
  have hd1 := digitChar_inj (by omega) (by omega) e7
  have hd2 := digitChar_inj (by omega) (by omega) e8
  have hh1 := digitChar_inj (by omega) (by omega) e9
  have hh2 := digitChar_inj (by omega) (by omega) e10
  have hmi1 := digitChar_inj (by omega) (by omega) e11
  have hmi2 := digitChar_inj (by omega) (by omega) e12
  have hs1 := digitChar_inj (by omega) (by omega) e13
  have hs2 := digitChar_inj (by omega) (by omega) e14
  exact ⟨by omega, by omega, by omega, by omega, by omega, by omega⟩

theorem string_wrap_inj (pre suf : String) {l1 l2 : List Char}
    (h : pre ++ String.mk l1 ++ suf = pre ++ String.mk l2 ++ suf) :
    l1 = l2 := by
  have hd := congrArg String.data h
  simp only [String.data_append] at hd
  have hd' : pre.data ++ l1 ++ suf.data = pre.data ++ l2 ++ suf.data := hd
  exact List.append_cancel_left (List.append_cancel_right hd')

theorem timestampChars_congr {t1 t2 : PyDateTime} (h : sameSecond t1 t2) :
    timestampChars t1 = timestampChars t2 := by
  obtain ⟨hy, hmo, hd, hh, hmi, hs⟩ := h
  unfold timestampChars four_digits two_digits
  rw [hy, hmo, hd, hh, hmi, hs]

/-- Claim C3, counterexample.  Two save_image invocations within the same
second (equal down to the second, different microseconds) produce the very
same file path, so they do collide; and USBCameraApp.save_image does not
produce a name of the form Image<timestamp>.jpg (neither does
PiCameraApp.save_image). -/
theorem c3_counterexample :
    ((⟨2025, 6, 1, 12, 0, 0, 0⟩ : PyDateTime) ≠ ⟨2025, 6, 1, 12, 0, 0, 500000⟩
      ∧ camImageFilepath "/home/pi/Pictures" ⟨2025, 6, 1, 12, 0, 0, 0⟩ =
          camImageFilepath "/home/pi/Pictures" ⟨2025, 6, 1, 12, 0, 0, 500000⟩)
    ∧ usbImageFilename ⟨2025, 6, 1, 12, 0, 0, 0⟩ ≠
        "Image" ++ timestampStr ⟨2025, 6, 1, 12, 0, 0, 0⟩ ++ ".jpg" := by
  refine ⟨⟨by decide, by decide⟩, by decide⟩

/-- Claim C3, amended.  CameraApp.save_image names files
Image<timestamp>.jpg, while the USB and Pi apps use USB_Image_<timestamp>.jpg
and PiCam_Image_<timestamp>.jpg; in each app two invocations at distinct
second-resolution timestamps produce distinct names, while two invocations
within the same second yield the identical file path (the second write
overwrites the first). -/
theorem c3_claim :
    ∀ (dir : String) (t1 t2 : PyDateTime), ValidDT t1 → ValidDT t2 →
      (camImageFilename t1 = "Image" ++ timestampStr t1 ++ ".jpg"
        ∧ usbImageFilename t1 = "USB_Image_" ++ timestampStr t1 ++ ".jpg"
        ∧ piImageFilename t1 = "PiCam_Image_" ++ timestampStr t1 ++ ".jpg")
      ∧ (¬ sameSecond t1 t2 →
          camImageFilename t1 ≠ camImageFilename t2 ∧
          usbImageFilename t1 ≠ usbImageFilename t2 ∧
          piImageFilename t1 ≠ piImageFilename t2)
      ∧ (sameSecond t1 t2 →
          camImageFilepath dir t1 = camImageFilepath dir t2) := by
  intro dir t1 t2 v1 v2
  refine ⟨⟨rfl, rfl, rfl⟩, ?_, ?_⟩
  · intro hne
    refine ⟨?_, ?_, ?_⟩
    · intro h
      exact hne (timestampChars_inj v1 v2 (string_wrap_inj "Image" ".jpg" h))
    · intro h
      exact hne (timestampChars_inj v1 v2
        (string_wrap_inj "USB_Image_" ".jpg" h))
    · intro h
      exact hne (timestampChars_inj v1 v2
        (string_wrap_inj "PiCam_Image_" ".jpg" h))
  · intro hs
    unfold camImageFilepath camImageFilename timestampStr
    rw [timestampChars_congr hs]

/-- Claim C3, witness: the amended theorem applied at two concrete
timestamps one second apart, and at two concrete timestamps in the same
second. -/
theorem c3_witness :
    camImageFilename ⟨2025, 6, 1, 12, 0, 0, 0⟩ ≠
        camImageFilename ⟨2025, 6, 1, 12, 0, 1, 0⟩ ∧
      camImageFilepath "/d" ⟨2025, 6, 1, 12, 0, 0, 1⟩ =
        camImageFilepath "/d" ⟨2025, 6, 1, 12, 0, 0, 2⟩ := by
  constructor
  · exact ((c3_claim "/d" ⟨2025, 6, 1, 12, 0, 0, 0⟩ ⟨2025, 6, 1, 12, 0, 1, 0⟩
      (by decide) (by decide)).2.1 (by decide)).1
  · exact (c3_claim "/d" ⟨2025, 6, 1, 12, 0, 0, 1⟩ ⟨2025, 6, 1, 12, 0, 0, 2⟩
      (by decide) (by decide)).2.2 (by decide)

/-! ## Claim C2: the recording toggle -/

/-- States reachable from a freshly constructed CameraApp by any sequence
of start_video_recording / stop_video_recording calls. -/
inductive RecReach : CamApp → Prop where
  | init (t0 : Nat) : RecReach (initCamApp t0)
  | start (now : Nat) {st : CamApp} :
      RecReach st → RecReach (start_video_recording now st)
  | stop {st : CamApp} : RecReach st → RecReach (stop_video_recording st)

/-- The two shapes of the recording machine: Idle (no writer held) and
Recording (writer held). -/
def writerMatches (st : CamApp) : Prop :=
  (st.is_recording = false ∧ st.video_writer = none) ∨
    (st.is_recording = true ∧ st.video_writer = some true)

/-- Claim C2: stop while idle is a no-op on the whole state, start while
recording is a no-op on the whole state, start from Idle reaches Recording
and stop from Recording reaches Idle, and every state reachable by
start/stop sequences is Idle (no writer) or Recording (writer held). -/
theorem c2_claim :
    ∀ (st : CamApp) (now : Nat),
      (st.is_recording = false → stop_video_recording st = st)
      ∧ (st.is_recording = true → start_video_recording now st = st)
      ∧ (st.is_recording = false →
          (start_video_recording now st).is_recording = true)
      ∧ (st.is_recording = true →
          (stop_video_recording st).is_recording = false)
      ∧ (RecReach st → writerMatches st) := by
  intro st now
  refine ⟨?_, ?_, ?_, ?_, ?_⟩
  · intro h
    simp [stop_video_recording, h]
  · intro h
    simp [start_video_recording, h]
  · intro h
    simp [start_video_recording, h]
  · intro h
    simp [stop_video_recording, h]
  · intro hr
    induction hr with
    | init t0 => exact Or.inl ⟨rfl, rfl⟩
    | start now' hst ih =>
      rcases ih with ⟨h1, h2⟩ | ⟨h1, h2⟩
      · right
        simp [start_video_recording, h1]
      · right
        simp [start_video_recording, h1, h2]
    | stop hst ih =>
      rcases ih with ⟨h1, h2⟩ | ⟨h1, h2⟩
      · left
        simp [stop_video_recording, h1, h2]
      · left
        simp [stop_video_recording, h1]

/-- Claim C2, witness: the toggle applied to the freshly constructed
state. -/
theorem c2_witness :
    stop_video_recording (initCamApp 0) = initCamApp 0 ∧
      (start_video_recording 5 (initCamApp 0)).is_recording = true ∧
      writerMatches (initCamApp 0) :=
  ⟨(c2_claim (initCamApp 0) 5).1 rfl,
   (c2_claim (initCamApp 0) 5).2.2.1 rfl,
   (c2_claim (initCamApp 0) 5).2.2.2.2 (RecReach.init 0)⟩

/-! ## Claim C9: no camera switch while recording -/

/-- Claim C9: while a recording is active, switch_camera reports False and
leaves the whole state (handles, camera_type, recording fields) unchanged;
only when idle does it re-run initialize_camera. -/
theorem c9_claim :
    ∀ (env : DetectEnv) (pref : String) (st : CamApp),
      (st.is_recording = true → switch_camera env pref st = (st, false))
      ∧ (st.is_recording = false →
          switch_camera env pref st = initialize_camera env pref st) := by
  intro env pref st
  constructor
  · intro h
    simp [switch_camera, h]
  · intro h
    simp [switch_camera, h]

/-- Claim C9, witness: a recording state refuses the switch. -/
theorem c9_witness :
    switch_camera ⟨fun _ => false, false, false, fun _ => false⟩ "auto"
        { initCamApp 0 with is_recording := true } =
      ({ initCamApp 0 with is_recording := true }, false) :=
  (c9_claim ⟨fun _ => false, false, false, fun _ => false⟩ "auto"
    { initCamApp 0 with is_recording := true }).1 rfl

/-! ## Claim C10: camera auto-selection -/

theorem head_filter_range {w : Nat → Bool} {n i : Nat}
    (h : ((List.range n).filter w).head? = some i) :
    w i = true ∧ i < n ∧ ∀ j, j < i → w j = false := by
  induction n with
  | zero => simp at h
  | succ m ih =>
    rw [List.range_succ, List.filter_append] at h
    cases hf : (List.range m).filter w with
    | nil =>
      rw [hf, List.nil_append] at h
      have hall := List.filter_eq_nil_iff.mp hf
      cases hw : w m with
      | true =>
        rw [List.filter_cons_of_pos (by simpa using hw),
          List.filter_nil] at h
        have him : m = i := by simpa using h
        subst him
        refine ⟨hw, by omega, ?_⟩
        intro j hj
        have := hall j (List.mem_range.mpr hj)
        simpa using this
      | false =>
        rw [List.filter_cons_of_neg (by simp [hw]), List.filter_nil] at h
        simp at h
    | cons a rest =>
      rw [hf, List.cons_append] at h
      have hai : a = i := by simpa using h
      subst hai
      rcases ih (by rw [hf]; rfl) with ⟨hw, hlt, hmin⟩
      exact ⟨hw, by omega, hmin⟩

/-- Claim C10, counterexample.  With a Pi Camera detected but failing to
initialise, and a working USB camera present, initialize_camera in auto
mode returns False even though cameras matching the preference are
available. -/
theorem c10_counterexample :
    (initialize_camera ⟨fun i => i == 0, true, false, fun _ => true⟩ "auto"
        (initCamApp 0)).2 = false
      ∧ (⟨fun i => i == 0, true, false, fun _ => true⟩ : DetectEnv).hasPicam
          = true
      ∧ detectUsb ⟨fun i => i == 0, true, false, fun _ => true⟩ = [0] :=
  ⟨rfl, rfl, rfl⟩

/-- Claim C10, amended.  In auto mode a detected Pi Camera is always the
one initialised (USB detections notwithstanding); a USB camera is used
only when no Pi Camera is detected, at the lowest detected index; and
initialize_camera returns False exactly when no camera matching the
preference is detected or the selected camera's initialisation fails (a
Pi Camera initialisation failure does not fall back to USB). -/
theorem c10_claim :
    ∀ (env : DetectEnv) (st : CamApp),
      (env.hasPicam = true →
        initialize_camera env "auto" st = initialize_picamera env st)
      ∧ (env.hasPicam = false → ∀ i, (detectUsb env).head? = some i →
          env.usbWorks i = true ∧ i < 10 ∧
            (∀ j, j < i → env.usbWorks j = false) ∧
            initialize_camera env "auto" st = initialize_usb_camera env i st)
      ∧ (env.hasPicam = false → detectUsb env = [] →
          initialize_camera env "auto" st = (st, false))
      ∧ ((initialize_camera env "auto" st).2 = false ↔
          (env.hasPicam = true ∧ env.picamInitOk = false)
          ∨ (env.hasPicam = false ∧ detectUsb env = [])
          ∨ (env.hasPicam = false ∧ ∃ i, (detectUsb env).head? = some i ∧
              env.usbInitOpens i = false)) := by
  intro env st
  refine ⟨?_, ?_, ?_, ?_⟩
  · intro hp
    simp [initialize_camera, hp]
  · intro hp i hi
    obtain ⟨hw, hlt, hmin⟩ := head_filter_range (w := env.usbWorks) hi
    refine ⟨hw, hlt, hmin, ?_⟩
    cases hd : detectUsb env with
    | nil => rw [hd] at hi; simp at hi
    | cons a rest =>
      rw [hd] at hi
      have hai : a = i := by simpa using hi
      subst hai
      simp [initialize_camera, hp, hd]
  · intro hp hd
    simp [initialize_camera, hp, hd]
  · cases hp : env.hasPicam with
    | true =>
      cases hpo : env.picamInitOk with
      | true => simp [initialize_camera, initialize_picamera, hp, hpo]
      | false => simp [initialize_camera, initialize_picamera, hp, hpo]
    | false =>
      cases hd : detectUsb env with
      | nil => simp [initialize_camera, hp, hd]
      | cons a rest =>
        cases ho : env.usbInitOpens a with
        | true =>
          simp [initialize_camera, initialize_usb_camera, hp, hd, ho]
        | false =>
          simp only [initialize_camera, hp, hd]
          simp [initialize_usb_camera, ho]

/-- Claim C10, witness: the amended theorem applied to a concrete
environment with a healthy Pi Camera, and to one with only a USB camera at
index 3. -/
theorem c10_witness :
    initialize_camera ⟨fun _ => true, true, true, fun _ => true⟩ "auto"
        (initCamApp 0) =
      initialize_picamera ⟨fun _ => true, true, true, fun _ => true⟩
        (initCamApp 0) ∧
    initialize_camera ⟨fun i => i == 3, false, false, fun _ => true⟩ "auto"
        (initCamApp 0) =
      initialize_usb_camera ⟨fun i => i == 3, false, false, fun _ => true⟩ 3
        (initCamApp 0) := by
  constructor
  · exact (c10_claim ⟨fun _ => true, true, true, fun _ => true⟩
      (initCamApp 0)).1 rfl
  · exact ((c10_claim ⟨fun i => i == 3, false, false, fun _ => true⟩
      (initCamApp 0)).2.1 rfl 3 rfl).2.2.2

/-! ## Claim C5: failure handling in the main loops -/

/-- Claim C5, counterexample.  After a successful Pi Camera startup, a
frame-read failure in CameraApp.run terminates the loop (break at line
437) instead of continuing to poll. -/
theorem c5_counterexample :
    (camIter ⟨fun _ => true, true, true, fun _ => true⟩ "auto"
        (CamIterInput.frame false 0 0)
        { initCamApp 0 with
            picam := true
            raw_capture := true
            camera_type := some CamType.picam }).exitCause =
      some CamExit.frameFail := rfl

/-- Claim C5, amended.  A frame-read failure is logged in all three apps
and leaves the state untouched; USBCameraApp.run and PiCameraApp.run then
continue polling, but CameraApp.run breaks out of its loop.  A camera that
cannot be initialised at startup is fatal: run returns without entering
the loop. -/
theorem c5_claim :
    ∀ (hw : HwEnv) (pref : String) (now key : Nat) (st : CamApp)
      (wo so : Bool) (ust : USBApp) (pst : PiApp)
      (inputs : List CamIterInput) (st0 : CamApp),
      camIter hw pref (CamIterInput.frame false now key) st =
        ⟨st, [CamEvent.frameError], some CamExit.frameFail⟩
      ∧ usbIter wo (CamIterInput.frame false now key) ust =
          (ust, [CamEvent.frameError], none)
      ∧ piIter so (CamIterInput.frame false now key) pst =
          (pst, [CamEvent.frameError], none)
      ∧ ((initialize_camera (envAt hw st0) pref st0).2 = false →
          camRun hw pref inputs st0 =
            (initialize_camera (envAt hw st0) pref st0).1) := by
  intro hw pref now key st wo so ust pst inputs st0
  refine ⟨rfl, rfl, rfl, ?_⟩
  intro h
  simp [camRun, h]

/-- Claim C5, witness: the amended theorem applied to a concrete
environment with no camera at all and to concrete loop states. -/
theorem c5_witness :
    usbIter false (CamIterInput.frame false 7 0) ⟨true, false, none, 0⟩ =
        (⟨true, false, none, 0⟩, [CamEvent.frameError], none) ∧
      camRun ⟨fun _ => false, false, false, fun _ => false⟩ "auto" []
          (initCamApp 0) =
        (initialize_camera
          (envAt ⟨fun _ => false, false, false, fun _ => false⟩ (initCamApp 0))
          "auto" (initCamApp 0)).1 :=
  ⟨(c5_claim ⟨fun _ => false, false, false, fun _ => false⟩ "auto" 7 0
      (initCamApp 0) false false ⟨true, false, none, 0⟩ ⟨false, false, 0⟩
      [] (initCamApp 0)).2.1,
   (c5_claim ⟨fun _ => false, false, false, fun _ => false⟩ "auto" 7 0
      (initCamApp 0) false false ⟨true, false, none, 0⟩ ⟨false, false, 0⟩
      [] (initCamApp 0)).2.2.2 rfl⟩

/-! ## Claim C6: keyboard mapping -/

/-- Claim C6, counterexample.  In USBCameraApp.run, ESC (27) does not quit
the loop, 't' (116) does not toggle the overlay and 'c' (99) does not
switch cameras: all three are ignored, contradicting the claimed mapping
for that app's key handling (PiCameraApp.run behaves the same). -/
theorem c6_counterexample :
    usbHandleKey false 0 27 ⟨true, false, none, 0⟩ =
        (⟨true, false, none, 0⟩, [], false)
      ∧ usbHandleKey false 0 116 ⟨true, false, none, 0⟩ =
        (⟨true, false, none, 0⟩, [], false)
      ∧ usbHandleKey false 0 99 ⟨true, false, none, 0⟩ =
        (⟨true, false, none, 0⟩, [], false) :=
  ⟨rfl, rfl, rfl⟩

/-- Claim C6, amended.  In CameraApp.run the full mapping holds: space
saves an image, v/V toggles recording, t/T toggles the overlay, c/C
attempts a camera switch, q/Q/ESC quit, and every other key does nothing.
In USBCameraApp.run and PiCameraApp.run only lowercase q quits, space
saves and lowercase v toggles recording; ESC, t, c and the uppercase
variants do nothing there. -/
theorem c6_claim :
    ∀ (env : DetectEnv) (pref : String) (now key : Nat) (st : CamApp)
      (wo so : Bool) (ust : USBApp) (pst : PiApp),
      camHandleKey env pref now 32 st = (st, [CamEvent.savedImage], false)
      ∧ (key = 118 ∨ key = 86 →
          camHandleKey env pref now key st =
            (if st.is_recording then
              (stop_video_recording st, [CamEvent.recStop], false)
            else (start_video_recording now st, [CamEvent.recStart], false)))
      ∧ (key = 116 ∨ key = 84 →
          camHandleKey env pref now key st =
            ({ st with show_status := !st.show_status },
             [CamEvent.overlayToggle], false))
      ∧ (key = 99 ∨ key = 67 →
          camHandleKey env pref now key st =
            ((switch_camera env pref st).1,
             [CamEvent.camSwitchTried (switch_camera env pref st).2], false))
      ∧ (key = 27 ∨ key = 113 ∨ key = 81 →
          camHandleKey env pref now key st = (st, [], true))
      ∧ (key ≠ 32 → key ≠ 118 → key ≠ 86 → key ≠ 116 → key ≠ 84 →
          key ≠ 99 → key ≠ 67 → key ≠ 27 → key ≠ 113 → key ≠ 81 →
          camHandleKey env pref now key st = (st, [], false))
      ∧ usbHandleKey wo now 113 ust = (ust, [], true)
      ∧ usbHandleKey wo now 32 ust = (ust, [CamEvent.savedImage], false)
      ∧ usbHandleKey wo now 118 ust =
          (if ust.is_recording then
            (usbStopRecording ust, [CamEvent.recStop], false)
          else (usbStartRecording wo now ust, [CamEvent.recStart], false))
      ∧ (key ≠ 113 → key ≠ 32 → key ≠ 118 →
          usbHandleKey wo now key ust = (ust, [], false))
      ∧ piHandleKey so now 113 pst = (pst, [], true)
      ∧ piHandleKey so now 32 pst = (pst, [CamEvent.savedImage], false)
      ∧ piHandleKey so now 118 pst =
          (if pst.is_recording then
            (piStopRecording pst, [CamEvent.recStop], false)
          else (piStartRecording so now pst, [CamEvent.recStart], false))
      ∧ (key ≠ 113 → key ≠ 32 → key ≠ 118 →
          piHandleKey so now key pst = (pst, [], false)) := by
  intro env pref now key st wo so ust pst
  refine ⟨rfl, ?_, ?_, ?_, ?_, ?_, rfl, rfl, rfl, ?_, rfl, rfl, rfl, ?_⟩
  · rintro (rfl | rfl) <;> rfl
  · rintro (rfl | rfl) <;> rfl
  · rintro (rfl | rfl) <;> rfl
  · rintro (rfl | rfl | rfl) <;> rfl
  · intro h1 h2 h3 h4 h5 h6 h7 h8 h9 h10
    simp [camHandleKey, h1, h2, h3, h4, h5, h6, h7, h8, h9, h10]
  · intro h1 h2 h3
    simp [usbHandleKey, h1, h2, h3]
  · intro h1 h2 h3
    simp [piHandleKey, h1, h2, h3]

/-- Claim C6, witness: the amended theorem at concrete keys — ESC quits
CameraApp's loop but is ignored by USBCameraApp's, and an unmapped key is
ignored everywhere. -/
theorem c6_witness :
    camHandleKey ⟨fun _ => false, false, false, fun _ => false⟩ "auto" 0 27
        (initCamApp 0) = (initCamApp 0, [], true)
      ∧ usbHandleKey false 0 27 ⟨false, false, none, 0⟩ =
        (⟨false, false, none, 0⟩, [], false)
      ∧ camHandleKey ⟨fun _ => false, false, false, fun _ => false⟩ "auto" 0
          55 (initCamApp 0) = (initCamApp 0, [], false) := by
  refine ⟨?_, ?_, ?_⟩
  · exact (c6_claim ⟨fun _ => false, false, false, fun _ => false⟩ "auto" 0
      27 (initCamApp 0) false false ⟨false, false, none, 0⟩
      ⟨false, false, 0⟩).2.2.2.2.1 (Or.inl rfl)
  · exact (c6_claim ⟨fun _ => false, false, false, fun _ => false⟩ "auto" 0
      27 (initCamApp 0) false false ⟨false, false, none, 0⟩
      ⟨false, false, 0⟩).2.2.2.2.2.2.2.2.2.1 (by decide) (by decide) (by decide)
  · exact (c6_claim ⟨fun _ => false, false, false, fun _ => false⟩ "auto" 0
      55 (initCamApp 0) false false ⟨false, false, none, 0⟩
      ⟨false, false, 0⟩).2.2.2.2.2.1 (by decide) (by decide) (by decide)
      (by decide) (by decide) (by decide) (by decide) (by decide) (by decide)
      (by decide)

/-! ## Claim C4: fall-back-safe directory creation -/

theorem usbCreateDirs_spec (fs : DirFs) (cwd : String) :
    ∀ (entries out : List (String × String)) (tr : List FsAction),
      usbCreateDirs fs cwd entries = (some out, tr) →
      List.Forall₂ (fun e o => e.1 = o.1 ∧ fs.mkdirs o.2 = FsOutcome.ok ∧
        (fs.mkdirs e.2 = FsOutcome.ok → o.2 = e.2) ∧
        (fs.mkdirs e.2 = FsOutcome.permError →
          o.2 = cwd ++ "/" ++ usbFallbackName e.1)) entries out := by
  intro entries
  induction entries with
  | nil =>
    intro out tr h
    simp only [usbCreateDirs, Prod.mk.injEq] at h
    obtain ⟨h1, -⟩ := h
    injection h1 with h1
    subst h1
    exact List.Forall₂.nil
  | cons e rest ih =>
    intro out tr h
    obtain ⟨name, path⟩ := e
    simp only [usbCreateDirs] at h
    cases h1 : fs.mkdirs path with
    | ok =>
      rw [h1] at h
      rcases hrec : usbCreateDirs fs cwd rest with ⟨ro, rtr⟩
      rw [hrec] at h
      simp only [Prod.mk.injEq] at h
      obtain ⟨ho, -⟩ := h
      cases ro with
      | none => exact absurd ho (by simp)
      | some l =>
        simp only [Option.map_some'] at ho
        injection ho with ho
        subst ho
        refine List.Forall₂.cons ⟨rfl, h1, fun _ => rfl, ?_⟩ (ih l rtr hrec)
        intro hperm
        rw [h1] at hperm
        cases hperm
    | permError =>
      rw [h1] at h
      cases h2 : fs.mkdirs (cwd ++ "/" ++ usbFallbackName name) with
      | ok =>
        rw [h2] at h
        rcases hrec : usbCreateDirs fs cwd rest with ⟨ro, rtr⟩
        rw [hrec] at h
        simp only [Prod.mk.injEq] at h
        obtain ⟨ho, -⟩ := h
        cases ro with
        | none => exact absurd ho (by simp)
        | some l =>
          simp only [Option.map_some'] at ho
          injection ho with ho
          subst ho
          refine List.Forall₂.cons ⟨rfl, h2, ?_, fun _ => rfl⟩ (ih l rtr hrec)
          intro hok
          rw [h1] at hok
          cases hok
      | permError =>
        rw [h2] at h
        simp only [Prod.mk.injEq] at h
        obtain ⟨ho, -⟩ := h
        cases ho
      | otherError =>
        rw [h2] at h
        simp only [Prod.mk.injEq] at h
        obtain ⟨ho, -⟩ := h
        cases ho
    | otherError =>
      rw [h1] at h
      cases h2 : fs.mkdirs (cwd ++ "/" ++ usbFallbackName name) with
      | ok =>
        rw [h2] at h
        rcases hrec : usbCreateDirs fs cwd rest with ⟨ro, rtr⟩
        rw [hrec] at h
        simp only [Prod.mk.injEq] at h
        obtain ⟨ho, -⟩ := h
        cases ro with
        | none => exact absurd ho (by simp)
        | some l =>
          simp only [Option.map_some'] at ho
          injection ho with ho
          subst ho
          refine List.Forall₂.cons
            ⟨rfl, h2, fun hok => absurd (h1.symm.trans hok) (by simp),
             fun hperm => absurd (h1.symm.trans hperm) (by simp)⟩
            (ih l rtr hrec)
      | permError =>
        rw [h2] at h
        simp only [Prod.mk.injEq] at h
        obtain ⟨ho, -⟩ := h
        cases ho
      | otherError =>
        rw [h2] at h
        simp only [Prod.mk.injEq] at h
        obtain ⟨ho, -⟩ := h
        cases ho

theorem piCreateDirs_spec (fs : DirFs) (home cwd : String) :
    ∀ (entries out : List (String × String)) (tr : List FsAction),
      piCreateDirs fs home cwd entries = (some out, tr) →
      ∀ o ∈ out, fs.mkdirs o.2 = FsOutcome.ok := by
  intro entries
  induction entries with
  | nil =>
    intro out tr h
    simp only [piCreateDirs, Prod.mk.injEq] at h
    obtain ⟨h1, -⟩ := h
    injection h1 with h1
    subst h1
    intro o ho
    cases ho
  | cons e rest ih =>
    intro out tr h
    obtain ⟨name, path⟩ := e
    simp only [piCreateDirs] at h
    cases h1 : fs.mkdirs (home ++ "/" ++ piTargetName name) with
    | ok =>
      rw [h1] at h
      rcases hrec : piCreateDirs fs home cwd rest with ⟨ro, rtr⟩
      rw [hrec] at h
      simp only [Prod.mk.injEq] at h
      obtain ⟨ho, -⟩ := h
      cases ro with
      | none => exact absurd ho (by simp)
      | some l =>
        simp only [Option.map_some'] at ho
        injection ho with ho
        subst ho
        intro o hmem
        rcases List.mem_cons.mp hmem with rfl | hm
        · exact h1
        · exact ih l rtr hrec o hm
    | permError =>
      rw [h1] at h
      cases h2 : fs.mkdirs (home ++ "/Desktop/" ++ piFallbackName name) with
      | ok =>
        rw [h2] at h
        rcases hrec : piCreateDirs fs home cwd rest with ⟨ro, rtr⟩
        rw [hrec] at h
        simp only [Prod.mk.injEq] at h
        obtain ⟨ho, -⟩ := h
        cases ro with
        | none => exact absurd ho (by simp)
        | some l =>
          simp only [Option.map_some'] at ho
          injection ho with ho
          subst ho
          intro o hmem
          rcases List.mem_cons.mp hmem with rfl | hm
          · exact h2
          · exact ih l rtr hrec o hm
      | permError =>
        rw [h2] at h
        cases h3 : fs.mkdirs (cwd ++ "/" ++ piFallbackName name) with
        | ok =>
          rw [h3] at h
          rcases hrec : piCreateDirs fs home cwd rest with ⟨ro, rtr⟩
          rw [hrec] at h
          simp only [Prod.mk.injEq] at h
          obtain ⟨ho, -⟩ := h
          cases ro with
          | none => exact absurd ho (by simp)
          | some l =>
            simp only [Option.map_some'] at ho
            injection ho with ho
            subst ho
            intro o hmem
            rcases List.mem_cons.mp hmem with rfl | hm
            · exact h3
            · exact ih l rtr hrec o hm
        | permError =>
          rw [h3] at h
          simp only [Prod.mk.injEq] at h
          obtain ⟨ho, -⟩ := h
          cases ho
        | otherError =>
          rw [h3] at h
          simp only [Prod.mk.injEq] at h
          obtain ⟨ho, -⟩ := h
          cases ho
      | otherError =>
        rw [h2] at h
        cases h3 : fs.mkdirs (cwd ++ "/" ++ piFallbackName name) with
        | ok =>
          rw [h3] at h
          rcases hrec : piCreateDirs fs home cwd rest with ⟨ro, rtr⟩
          rw [hrec] at h
          simp only [Prod.mk.injEq] at h
          obtain ⟨ho, -⟩ := h
          cases ro with
          | none => exact absurd ho (by simp)
          | some l =>
            simp only [Option.map_some'] at ho
            injection ho with ho
            subst ho
            intro o hmem
            rcases List.mem_cons.mp hmem with rfl | hm
            · exact h3
            · exact ih l rtr hrec o hm
        | permError =>
          rw [h3] at h
          simp only [Prod.mk.injEq] at h
          obtain ⟨ho, -⟩ := h
          cases ho
        | otherError =>
          rw [h3] at h
          simp only [Prod.mk.injEq] at h
          obtain ⟨ho, -⟩ := h
          cases ho
    | otherError =>
      rw [h1] at h
      cases h2 : fs.mkdirs (home ++ "/Desktop/" ++ piFallbackName name) with
      | ok =>
        rw [h2] at h
        rcases hrec : piCreateDirs fs home cwd rest with ⟨ro, rtr⟩
        rw [hrec] at h
        simp only [Prod.mk.injEq] at h
        obtain ⟨ho, -⟩ := h
        cases ro with
        | none => exact absurd ho (by simp)
        | some l =>
          simp only [Option.map_some'] at ho
          injection ho with ho
          subst ho
          intro o hmem
          rcases List.mem_cons.mp hmem with rfl | hm
          · exact h2
          · exact ih l rtr hrec o hm
      | permError =>
        rw [h2] at h
        cases h3 : fs.mkdirs (cwd ++ "/" ++ piFallbackName name) with
        | ok =>
          rw [h3] at h
          rcases hrec : piCreateDirs fs home cwd rest with ⟨ro, rtr⟩
          rw [hrec] at h
          simp only [Prod.mk.injEq] at h
          obtain ⟨ho, -⟩ := h
          cases ro with
          | none => exact absurd ho (by simp)
          | some l =>
            simp only [Option.map_some'] at ho
            injection ho with ho
            subst ho
            intro o hmem
            rcases List.mem_cons.mp hmem with rfl | hm
            · exact h3
            · exact ih l rtr hrec o hm
        | permError =>
          rw [h3] at h
          simp only [Prod.mk.injEq] at h
          obtain ⟨ho, -⟩ := h
          cases ho
        | otherError =>
          rw [h3] at h
          simp only [Prod.mk.injEq] at h
          obtain ⟨ho, -⟩ := h
          cases ho
      | otherError =>
        rw [h2] at h
        cases h3 : fs.mkdirs (cwd ++ "/" ++ piFallbackName name) with
        | ok =>
          rw [h3] at h
          rcases hrec : piCreateDirs fs home cwd rest with ⟨ro, rtr⟩
          rw [hrec] at h
          simp only [Prod.mk.injEq] at h
          obtain ⟨ho, -⟩ := h
          cases ro with
          | none => exact absurd ho (by simp)
          | some l =>
            simp only [Option.map_some'] at ho
            injection ho with ho
            subst ho
            intro o hmem
            rcases List.mem_cons.mp hmem with rfl | hm
            · exact h3
            · exact ih l rtr hrec o hm
        | permError =>
          rw [h3] at h
          simp only [Prod.mk.injEq] at h
          obtain ⟨ho, -⟩ := h
          cases ho
        | otherError =>
          rw [h3] at h
          simp only [Prod.mk.injEq] at h
          obtain ⟨ho, -⟩ := h
          cases ho

/-- Claim C4: whenever create_directories returns normally, every entry of
the resulting save_paths names a directory whose creation succeeded; in
USBCameraApp an entry keeps its configured path when its mkdir succeeded
and is redirected to the cwd fallback exactly on a permission error. -/
theorem c4_claim :
    ∀ (fs : DirFs) (cwd home : String)
      (entries out : List (String × String)) (tr : List FsAction),
      (usbCreateDirs fs cwd entries = (some out, tr) →
        List.Forall₂ (fun e o => e.1 = o.1 ∧ fs.mkdirs o.2 = FsOutcome.ok ∧
          (fs.mkdirs e.2 = FsOutcome.ok → o.2 = e.2) ∧
          (fs.mkdirs e.2 = FsOutcome.permError →
            o.2 = cwd ++ "/" ++ usbFallbackName e.1)) entries out)
      ∧ (piCreateDirs fs home cwd entries = (some out, tr) →
          ∀ o ∈ out, fs.mkdirs o.2 = FsOutcome.ok) := by
  intro fs cwd home entries out tr
  exact ⟨usbCreateDirs_spec fs cwd entries out tr,
         piCreateDirs_spec fs home cwd entries out tr⟩

/-- Claim C4, witness: a filesystem denying permission on the configured
images directory; the fallback is taken and reflected in the returned
configuration. -/
theorem c4_witness :
    List.Forall₂ (fun (e : String × String) (o : String × String) =>
        e.1 = o.1 ∧
        DirFs.mkdirs ⟨fun p => if p = "/home/pi/Pictures" then
          FsOutcome.permError else FsOutcome.ok⟩ o.2 = FsOutcome.ok ∧
        (DirFs.mkdirs ⟨fun p => if p = "/home/pi/Pictures" then
          FsOutcome.permError else FsOutcome.ok⟩ e.2 = FsOutcome.ok →
            o.2 = e.2) ∧
        (DirFs.mkdirs ⟨fun p => if p = "/home/pi/Pictures" then
          FsOutcome.permError else FsOutcome.ok⟩ e.2 = FsOutcome.permError →
            o.2 = "/app" ++ "/" ++ usbFallbackName e.1))
      [("images", "/home/pi/Pictures"), ("videos", "/home/pi/Movies")]
      [("images", "/app/Pictures"), ("videos", "/home/pi/Movies")] :=
  (c4_claim ⟨fun p => if p = "/home/pi/Pictures" then FsOutcome.permError
      else FsOutcome.ok⟩ "/app" "/home/pi"
    [("images", "/home/pi/Pictures"), ("videos", "/home/pi/Movies")]
    [("images", "/app/Pictures"), ("videos", "/home/pi/Movies")]
    [FsAction.mkdir "/home/pi/Pictures", FsAction.mkdir "/app/Pictures",
     FsAction.mkdir "/home/pi/Movies"]).1 (by decide)

/-! ## Claim C7: directory permissions at startup -/

theorem usbCreateDirs_no_chmod (fs : DirFs) (cwd : String) :
    ∀ (entries : List (String × String)),
      ∀ a ∈ (usbCreateDirs fs cwd entries).2, a.isChmod = false := by
  intro entries
  induction entries with
  | nil => intro a ha; cases ha
  | cons e rest ih =>
    obtain ⟨name, path⟩ := e
    intro a ha
    simp only [usbCreateDirs] at ha
    cases h1 : fs.mkdirs path with
    | ok =>
      rw [h1] at ha
      rcases List.mem_cons.mp ha with rfl | hm
      · rfl
      · exact ih a hm
    | permError =>
      rw [h1] at ha
      cases h2 : fs.mkdirs (cwd ++ "/" ++ usbFallbackName name) with
      | ok =>
        rw [h2] at ha
        rcases List.mem_cons.mp ha with rfl | hm
        · rfl
        · rcases List.mem_cons.mp hm with rfl | hm2
          · rfl
          · exact ih a hm2
      | permError =>
        rw [h2] at ha
        rcases List.mem_cons.mp ha with rfl | hm
        · rfl
        · rcases List.mem_cons.mp hm with rfl | hm2
          · rfl
          · cases hm2
      | otherError =>
        rw [h2] at ha
        rcases List.mem_cons.mp ha with rfl | hm
        · rfl
        · rcases List.mem_cons.mp hm with rfl | hm2
          · rfl
          · cases hm2
    | otherError =>
      rw [h1] at ha
      cases h2 : fs.mkdirs (cwd ++ "/" ++ usbFallbackName name) with
      | ok =>
        rw [h2] at ha
        rcases List.mem_cons.mp ha with rfl | hm
        · rfl
        · rcases List.mem_cons.mp hm with rfl | hm2
          · rfl
          · exact ih a hm2
      | permError =>
        rw [h2] at ha
        rcases List.mem_cons.mp ha with rfl | hm
        · rfl
        · rcases List.mem_cons.mp hm with rfl | hm2
          · rfl
          · cases hm2
      | otherError =>
        rw [h2] at ha
        rcases List.mem_cons.mp ha with rfl | hm
        · rfl
        · rcases List.mem_cons.mp hm with rfl | hm2
          · rfl
          · cases hm2

theorem piCreateDirs_no_chmod (fs : DirFs) (home cwd : String) :
    ∀ (entries : List (String × String)),
      ∀ a ∈ (piCreateDirs fs home cwd entries).2, a.isChmod = false := by
  intro entries
  induction entries with
  | nil => intro a ha; cases ha
  | cons e rest ih =>
    obtain ⟨name, path⟩ := e
    intro a ha
    simp only [piCreateDirs] at ha
    cases h1 : fs.mkdirs (home ++ "/" ++ piTargetName name) with
    | ok =>
      rw [h1] at ha
      rcases List.mem_cons.mp ha with rfl | hm
      · rfl
      · exact ih a hm
    | permError =>
      rw [h1] at ha
      cases h2 : fs.mkdirs (home ++ "/Desktop/" ++ piFallbackName name) with
      | ok =>
        rw [h2] at ha
        rcases List.mem_cons.mp ha with rfl | hm
        · rfl
        · rcases List.mem_cons.mp hm with rfl | hm2
          · rfl
          · exact ih a hm2
      | permError =>
        rw [h2] at ha
        cases h3 : fs.mkdirs (cwd ++ "/" ++ piFallbackName name) with
        | ok =>
          rw [h3] at ha
          rcases List.mem_cons.mp ha with rfl | hm
          · rfl
          · rcases List.mem_cons.mp hm with rfl | hm2
            · rfl
            · rcases List.mem_cons.mp hm2 with rfl | hm3
              · rfl
              · exact ih a hm3
        | permError =>
          rw [h3] at ha
          rcases List.mem_cons.mp ha with rfl | hm
          · rfl
          · rcases List.mem_cons.mp hm with rfl | hm2
            · rfl
            · rcases List.mem_cons.mp hm2 with rfl | hm3
              · rfl
              · cases hm3
        | otherError =>
          rw [h3] at ha
          rcases List.mem_cons.mp ha with rfl | hm
          · rfl
          · rcases List.mem_cons.mp hm with rfl | hm2
            · rfl
            · rcases List.mem_cons.mp hm2 with rfl | hm3
              · rfl
              · cases hm3
      | otherError =>
        rw [h2] at ha
        cases h3 : fs.mkdirs (cwd ++ "/" ++ piFallbackName name) with
        | ok =>
          rw [h3] at ha
          rcases List.mem_cons.mp ha with rfl | hm
          · rfl
          · rcases List.mem_cons.mp hm with rfl | hm2
            · rfl
            · rcases List.mem_cons.mp hm2 with rfl | hm3
              · rfl
              · exact ih a hm3
        | permError =>
          rw [h3] at ha
          rcases List.mem_cons.mp ha with rfl | hm
          · rfl
          · rcases List.mem_cons.mp hm with rfl | hm2
            · rfl
            · rcases List.mem_cons.mp hm2 with rfl | hm3
              · rfl
              · cases hm3
        | otherError =>
          rw [h3] at ha
          rcases List.mem_cons.mp ha with rfl | hm
          · rfl
          · rcases List.mem_cons.mp hm with rfl | hm2
            · rfl
            · rcases List.mem_cons.mp hm2 with rfl | hm3
              · rfl
              · cases hm3
    | otherError =>
      rw [h1] at ha
      cases h2 : fs.mkdirs (home ++ "/Desktop/" ++ piFallbackName name) with
      | ok =>
        rw [h2] at ha
        rcases List.mem_cons.mp ha with rfl | hm
        · rfl
        · rcases List.mem_cons.mp hm with rfl | hm2
          · rfl
          · exact ih a hm2
      | permError =>
        rw [h2] at ha
        cases h3 : fs.mkdirs (cwd ++ "/" ++ piFallbackName name) with
        | ok =>
          rw [h3] at ha
          rcases List.mem_cons.mp ha with rfl | hm
          · rfl
          · rcases List.mem_cons.mp hm with rfl | hm2
            · rfl
            · rcases List.mem_cons.mp hm2 with rfl | hm3
              · rfl
              · exact ih a hm3
        | permError =>
          rw [h3] at ha
          rcases List.mem_cons.mp ha with rfl | hm
          · rfl
          · rcases List.mem_cons.mp hm with rfl | hm2
            · rfl
            · rcases List.mem_cons.mp hm2 with rfl | hm3
              · rfl
              · cases hm3
        | otherError =>
          rw [h3] at ha
          rcases List.mem_cons.mp ha with rfl | hm
          · rfl
          · rcases List.mem_cons.mp hm with rfl | hm2
            · rfl
            · rcases List.mem_cons.mp hm2 with rfl | hm3
              · rfl
              · cases hm3
      | otherError =>
        rw [h2] at ha
        cases h3 : fs.mkdirs (cwd ++ "/" ++ piFallbackName name) with
        | ok =>
          rw [h3] at ha
          rcases List.mem_cons.mp ha with rfl | hm
          · rfl
          · rcases List.mem_cons.mp hm with rfl | hm2
            · rfl
            · rcases List.mem_cons.mp hm2 with rfl | hm3
              · rfl
              · exact ih a hm3
        | permError =>
          rw [h3] at ha
          rcases List.mem_cons.mp ha with rfl | hm
          · rfl
          · rcases List.mem_cons.mp hm with rfl | hm2
            · rfl
            · rcases List.mem_cons.mp hm2 with rfl | hm3
              · rfl
              · cases hm3
        | otherError =>
          rw [h3] at ha
          rcases List.mem_cons.mp ha with rfl | hm
          · rfl
          · rcases List.mem_cons.mp hm with rfl | hm2
            · rfl
            · rcases List.mem_cons.mp hm2 with rfl | hm3
              · rfl
              · cases hm3

/-- Claim C7, counterexample.  USBCameraApp startup creates the configured
directories but performs no chmod at all: its complete filesystem trace is
two mkdir calls, so directories are never given mode 755 by the program
(PiCameraApp behaves the same). -/
theorem c7_counterexample :
    (usbCreateDirs ⟨fun _ => FsOutcome.ok⟩ "/app"
        [("images", "/home/pi/Pictures"), ("videos", "/home/pi/Movies")]).2 =
      [FsAction.mkdir "/home/pi/Pictures", FsAction.mkdir "/home/pi/Movies"]
      ∧ ((usbCreateDirs ⟨fun _ => FsOutcome.ok⟩ "/app"
          [("images", "/home/pi/Pictures"),
           ("videos", "/home/pi/Movies")]).2.all
            (fun a => !a.isChmod)) = true :=
  ⟨rfl, rfl⟩

/-- Claim C7, amended.  CameraApp.__init__ creates both configured save
directories if missing and chmods each to 0o755 before run() starts the
main loop, and 0o755 is the only mode it ever sets; USBCameraApp and
PiCameraApp create their directories but never issue any chmod. -/
theorem c7_claim :
    ∀ (images videos : String) (fs : DirFs) (cwd home : String)
      (entries : List (String × String)),
      FsAction.mkdir images ∈ camInitFsActions images videos
      ∧ FsAction.mkdir videos ∈ camInitFsActions images videos
      ∧ FsAction.chmod images 0o755 ∈ camInitFsActions images videos
      ∧ FsAction.chmod videos 0o755 ∈ camInitFsActions images videos
      ∧ (∀ p m, FsAction.chmod p m ∈ camInitFsActions images videos →
          m = 0o755)
      ∧ (∀ a ∈ (usbCreateDirs fs cwd entries).2, a.isChmod = false)
      ∧ (∀ a ∈ (piCreateDirs fs home cwd entries).2, a.isChmod = false) := by
  intro images videos fs cwd home entries
  refine ⟨?_, ?_, ?_, ?_, ?_, ?_, ?_⟩
  · simp [camInitFsActions]
  · simp [camInitFsActions]
  · simp [camInitFsActions]
  · simp [camInitFsActions]
  · intro p m hm
    simp only [camInitFsActions, List.mem_cons, List.not_mem_nil,
      or_false] at hm
    rcases hm with h | h | h | h
    · cases h
    · cases h
    · injection h with h1 h2
    · injection h with h1 h2
  · exact usbCreateDirs_no_chmod fs cwd entries
  · exact piCreateDirs_no_chmod fs home cwd entries

/-- Claim C7, witness: concrete paths for the camera_app chmod actions and
a concrete USB-app trace element. -/
theorem c7_witness :
    FsAction.chmod "/h/Pictures" 0o755 ∈
        camInitFsActions "/h/Pictures" "/h/Movies"
      ∧ (FsAction.mkdir "/x").isChmod = false := by
  constructor
  · exact (c7_claim "/h/Pictures" "/h/Movies" ⟨fun _ => FsOutcome.ok⟩
      "/app" "/h" [("images", "/x")]).2.2.1
  · exact (c7_claim "/h/Pictures" "/h/Movies" ⟨fun _ => FsOutcome.ok⟩
      "/app" "/h" [("images", "/x")]).2.2.2.2.2.1 (FsAction.mkdir "/x")
      (by decide)
/-! ## Claim C8: resource release on exit paths of run -/

theorem stop_video_recording_type (st : CamApp) :
    (stop_video_recording st).camera_type = st.camera_type := by
  unfold stop_video_recording
  cases st.is_recording <;> rfl

theorem initialize_picamera_writer (env : DetectEnv) (st : CamApp) :
    (initialize_picamera env st).1.video_writer = st.video_writer
    ∧ (initialize_picamera env st).1.is_recording = st.is_recording := by
  unfold initialize_picamera
  cases env.picamInitOk <;> exact ⟨rfl, rfl⟩

theorem initialize_usb_camera_writer (env : DetectEnv) (i : Nat)
    (st : CamApp) :
    (initialize_usb_camera env i st).1.video_writer = st.video_writer
    ∧ (initialize_usb_camera env i st).1.is_recording = st.is_recording := by
  unfold initialize_usb_camera
  cases env.usbInitOpens i <;> exact ⟨rfl, rfl⟩

theorem initialize_camera_split (env : DetectEnv) (pref : String)
    (st : CamApp) :
    initialize_camera env pref st = initialize_picamera env st
    ∨ (∃ i, initialize_camera env pref st = initialize_usb_camera env i st)
    ∨ initialize_camera env pref st = (st, false) := by
  by_cases ha : pref = "auto"
  · cases hp : env.hasPicam with
    | true => left; simp [initialize_camera, ha, hp]
    | false =>
      cases hd : detectUsb env with
      | nil => right; right; simp [initialize_camera, ha, hp, hd]
      | cons i rest =>
        right; left
        exact ⟨i, by simp [initialize_camera, ha, hp, hd]⟩
  · by_cases hpi : pref = "picam"
    · cases hp : env.hasPicam with
      | true => left; simp [initialize_camera, ha, hpi, hp]
      | false => right; right; simp [initialize_camera, ha, hpi, hp]
    · by_cases hu : pref = "usb"
      · cases hd : detectUsb env with
        | nil => right; right; simp [initialize_camera, ha, hpi, hu, hd]
        | cons i rest =>
          right; left
          exact ⟨i, by simp [initialize_camera, ha, hpi, hu, hd]⟩
      · right; right; simp [initialize_camera, ha, hpi, hu]

theorem initialize_camera_writer (env : DetectEnv) (pref : String)
    (st : CamApp) :
    (initialize_camera env pref st).1.video_writer = st.video_writer
    ∧ (initialize_camera env pref st).1.is_recording = st.is_recording := by
  rcases initialize_camera_split env pref st with heq | ⟨i, heq⟩ | heq <;>
    rw [heq]
  · exact initialize_picamera_writer env st
  · exact initialize_usb_camera_writer env i st
  · exact ⟨rfl, rfl⟩

theorem switch_camera_writer (env : DetectEnv) (pref : String)
    (st : CamApp) :
    (switch_camera env pref st).1.video_writer = st.video_writer
    ∧ (switch_camera env pref st).1.is_recording = st.is_recording := by
  unfold switch_camera
  cases hr : st.is_recording with
  | true => exact ⟨rfl, hr⟩
  | false =>
    obtain ⟨h1, h2⟩ := initialize_camera_writer env pref st
    exact ⟨h1, h2.trans hr⟩

theorem update_fps_writer (now : Nat) (st : CamApp) :
    (update_fps now st).video_writer = st.video_writer
    ∧ (update_fps now st).is_recording = st.is_recording := by
  unfold update_fps
  by_cases hc : st.fps_start_time + 1 ≤ now
  · rw [if_pos hc]; exact ⟨rfl, rfl⟩
  · rw [if_neg hc]; exact ⟨rfl, rfl⟩

theorem camHandleKey_writer {env : DetectEnv} {pref : String} {st : CamApp}
    (now key : Nat) (h : st.video_writer.isSome = st.is_recording) :
    (camHandleKey env pref now key st).1.video_writer.isSome =
      (camHandleKey env pref now key st).1.is_recording := by
  unfold camHandleKey
  by_cases h32 : key = 32
  · rw [if_pos h32]; exact h
  · rw [if_neg h32]
    by_cases hv : key = 118 ∨ key = 86
    · rw [if_pos hv]
      cases hr : st.is_recording with
      | true =>
        show (stop_video_recording st).video_writer.isSome =
          (stop_video_recording st).is_recording
        unfold stop_video_recording
        rw [hr]
        rfl
      | false =>
        show (start_video_recording now st).video_writer.isSome =
          (start_video_recording now st).is_recording
        unfold start_video_recording
        rw [hr]
        rfl
    · rw [if_neg hv]
      by_cases htk : key = 116 ∨ key = 84
      · rw [if_pos htk]; exact h
      · rw [if_neg htk]
        by_cases hck : key = 99 ∨ key = 67
        · rw [if_pos hck]
          show (switch_camera env pref st).1.video_writer.isSome =
            (switch_camera env pref st).1.is_recording
          obtain ⟨hw1, hr1⟩ := switch_camera_writer env pref st
          rw [hw1, hr1]
          exact h
        · rw [if_neg hck]
          by_cases hq : key = 27 ∨ key = 113 ∨ key = 81
          · rw [if_pos hq]; exact h
          · rw [if_neg hq]; exact h

theorem camIter_writer {hw : HwEnv} {pref : String} {st : CamApp}
    (inp : CamIterInput) (h : st.video_writer.isSome = st.is_recording) :
    (camIter hw pref inp st).state.video_writer.isSome =
      (camIter hw pref inp st).state.is_recording := by
  cases inp with
  | interrupt => exact h
  | frame ok now key =>
    cases ok with
    | false => exact h
    | true =>
      show (camHandleKey (envAt hw (update_fps now st)) pref now key
          (update_fps now st)).1.video_writer.isSome =
        (camHandleKey (envAt hw (update_fps now st)) pref now key
          (update_fps now st)).1.is_recording
      apply camHandleKey_writer
      obtain ⟨hw1, hr1⟩ := update_fps_writer now st
      rw [hw1, hr1]
      exact h

theorem camLoop_writer {hw : HwEnv} {pref : String} :
    ∀ (inputs : List CamIterInput) (st : CamApp),
      st.video_writer.isSome = st.is_recording →
      (camLoop hw pref inputs st).video_writer.isSome =
        (camLoop hw pref inputs st).is_recording := by
  intro inputs
  induction inputs with
  | nil => intro st h; exact h
  | cons inp rest ih =>
    intro st h
    simp only [camLoop]
    cases hx : (camIter hw pref inp st).exitCause with
    | some c => exact camIter_writer inp h
    | none => exact ih _ (camIter_writer inp h)

theorem cleanup_camera_writer (st : CamApp) :
    (cleanup_camera st).video_writer = st.video_writer := by
  unfold cleanup_camera
  cases st.camera_type with
  | none => rfl
  | some t => cases t <;> rfl

theorem cleanup_writer {st : CamApp}
    (h : st.video_writer.isSome = st.is_recording) :
    (cleanup st).video_writer = none := by
  have hmid : (if st.is_recording then stop_video_recording st
      else st).video_writer = none := by
    cases hr : st.is_recording with
    | true =>
      show (stop_video_recording st).video_writer = none
      unfold stop_video_recording
      rw [hr]
      rfl
    | false =>
      rw [hr] at h
      show st.video_writer = none
      cases hwv : st.video_writer with
      | none => rfl
      | some b => rw [hwv] at h; simp at h
  unfold cleanup
  rw [cleanup_camera_writer]
  exact hmid

theorem cleanup_active_handles (st : CamApp) :
    (cleanup st).camera_type = st.camera_type
    ∧ (st.camera_type = some CamType.usb → (cleanup st).cap = false)
    ∧ (st.camera_type = some CamType.picam →
        (cleanup st).picam = false ∧ (cleanup st).raw_capture = false) := by
  have hmidt : (if st.is_recording then stop_video_recording st
      else st).camera_type = st.camera_type := by
    cases st.is_recording with
    | true => exact stop_video_recording_type st
    | false => rfl
  unfold cleanup cleanup_camera
  rw [hmidt]
  cases hct : st.camera_type with
  | none =>
    refine ⟨hmidt.trans hct, ?_, ?_⟩
    · intro hx; exact absurd hx (by simp)
    · intro hx; exact absurd hx (by simp)
  | some t =>
    cases t with
    | usb =>
      refine ⟨rfl, fun _ => rfl, ?_⟩
      intro hx
      exact absurd hx (by simp)
    | picam =>
      refine ⟨rfl, ?_, fun _ => ⟨rfl, rfl⟩⟩
      intro hx
      exact absurd hx (by simp)

theorem usbIter_inv {wo : Bool} {st : USBApp} (inp : CamIterInput)
    (h : st.video_writer.isSome = st.is_recording) :
    (usbIter wo inp st).1.video_writer.isSome =
      (usbIter wo inp st).1.is_recording := by
  cases inp with
  | interrupt => exact h
  | frame ok now key =>
    cases ok with
    | false => exact h
    | true =>
      show (usbHandleKey wo now key st).1.video_writer.isSome =
        (usbHandleKey wo now key st).1.is_recording
      unfold usbHandleKey
      by_cases hq : key = 113
      · rw [if_pos hq]; exact h
      · rw [if_neg hq]
        by_cases hs : key = 32
        · rw [if_pos hs]; exact h
        · rw [if_neg hs]
          by_cases hv : key = 118
          · rw [if_pos hv]
            cases hr : st.is_recording with
            | true =>
              show (usbStopRecording st).video_writer.isSome =
                (usbStopRecording st).is_recording
              unfold usbStopRecording
              rw [hr]
              rfl
            | false =>
              show (usbStartRecording wo now st).video_writer.isSome =
                (usbStartRecording wo now st).is_recording
              unfold usbStartRecording
              rw [hr]
              cases wo with
              | true => rfl
              | false => rfl
          · rw [if_neg hv]; exact h

theorem usbLoop_inv {wo : Bool} :
    ∀ (inputs : List CamIterInput) (st : USBApp),
      st.video_writer.isSome = st.is_recording →
      (usbLoop wo inputs st).video_writer.isSome =
        (usbLoop wo inputs st).is_recording := by
  intro inputs
  induction inputs with
  | nil => intro st h; exact h
  | cons inp rest ih =>
    intro st h
    simp only [usbLoop]
    cases hx : (usbIter wo inp st).2.2 with
    | some c => exact usbIter_inv inp h
    | none => exact ih _ (usbIter_inv inp h)

theorem usbCleanup_releases {st : USBApp}
    (h : st.video_writer.isSome = st.is_recording) :
    (usbCleanup st).video_writer = none ∧ (usbCleanup st).camera = false := by
  unfold usbCleanup usbStopRecording
  cases hr : st.is_recording with
  | true => cases hc : st.camera <;> simp_all
  | false =>
    have hw : st.video_writer = none := by
      rw [hr] at h
      cases hwv : st.video_writer with
      | none => rfl
      | some b => rw [hwv] at h; simp at h
    cases hc : st.camera <;> simp_all
/-- Claim C8, counterexample.  With a Pi Camera and a USB camera both
attached, run starts on the Pi Camera.  Pressing c re-runs detection while
self.picam is held, so the PiCamera() probe at camera_app.py line 130
raises, detection reports no Pi Camera, and initialize_camera opens the
USB camera without closing the held PiCamera.  Quitting normally with q
then runs cleanup, whose camera_type is usb, so cleanup_camera releases
only the VideoCapture handle: the stale PiCamera handle and its raw
capture survive run's return on a normal-quit exit path. -/
theorem c8_counterexample :
    (initialize_camera
        (envAt ⟨fun i => i == 0, true, true, fun _ => true⟩ (initCamApp 0))
        "auto" (initCamApp 0)).2 = true
      ∧ (camRun ⟨fun i => i == 0, true, true, fun _ => true⟩ "auto"
          [CamIterInput.frame true 1 99, CamIterInput.frame true 2 113]
          (initCamApp 0)).camera_type = some CamType.usb
      ∧ (camRun ⟨fun i => i == 0, true, true, fun _ => true⟩ "auto"
          [CamIterInput.frame true 1 99, CamIterInput.frame true 2 113]
          (initCamApp 0)).picam = true
      ∧ (camRun ⟨fun i => i == 0, true, true, fun _ => true⟩ "auto"
          [CamIterInput.frame true 1 99, CamIterInput.frame true 2 113]
          (initCamApp 0)).raw_capture = true := by
  refine ⟨rfl, rfl, rfl, rfl⟩

/-- Claim C8, amended.  On every exit path of the main run loop the
video-writer handle is released before run returns, and the handles of
the backend recorded in camera_type at exit are released (the VideoCapture
handle for usb, the PiCamera and raw-capture handles for picam).  But
cleanup releases only that recorded backend: after an in-loop camera
switch, the previously active backend's handle survives run's return, as
the counterexample shows.  USBCameraApp.run, which has no switch, releases
its writer and camera handle on every exit path. -/
theorem c8_claim :
    ∀ (hw : HwEnv) (pref : String) (inputs : List CamIterInput) (t0 : Nat)
      (wo : Bool) (uinputs : List CamIterInput) (ust : USBApp),
      ((initialize_camera (envAt hw (initCamApp t0)) pref (initCamApp t0)).2
          = true →
        (camRun hw pref inputs (initCamApp t0)).video_writer = none
        ∧ ((camRun hw pref inputs (initCamApp t0)).camera_type
              = some CamType.usb →
            (camRun hw pref inputs (initCamApp t0)).cap = false)
        ∧ ((camRun hw pref inputs (initCamApp t0)).camera_type
              = some CamType.picam →
            (camRun hw pref inputs (initCamApp t0)).picam = false
            ∧ (camRun hw pref inputs (initCamApp t0)).raw_capture = false))
      ∧ (ust.video_writer.isSome = ust.is_recording →
          (usbRun true wo uinputs ust).video_writer = none
          ∧ (usbRun true wo uinputs ust).camera = false) := by
  intro hw pref inputs t0 wo uinputs ust
  constructor
  · intro hok
    have heq : camRun hw pref inputs (initCamApp t0) =
        cleanup (camLoop hw pref inputs
          (initialize_camera (envAt hw (initCamApp t0)) pref
            (initCamApp t0)).1) := by
      simp [camRun, hok]
    have hw0 : (initialize_camera (envAt hw (initCamApp t0)) pref
        (initCamApp t0)).1.video_writer.isSome =
        (initialize_camera (envAt hw (initCamApp t0)) pref
          (initCamApp t0)).1.is_recording := by
      obtain ⟨h1, h2⟩ := initialize_camera_writer
        (envAt hw (initCamApp t0)) pref (initCamApp t0)
      rw [h1, h2]
      rfl
    have hexit := @camLoop_writer hw pref inputs
      (initialize_camera (envAt hw (initCamApp t0)) pref (initCamApp t0)).1 hw0
    have hrel := cleanup_active_handles
      (camLoop hw pref inputs (initialize_camera (envAt hw (initCamApp t0))
        pref (initCamApp t0)).1)
    rw [heq]
    refine ⟨cleanup_writer hexit, ?_, ?_⟩
    · intro htype
      exact hrel.2.1 (hrel.1.symm.trans htype)
    · intro htype
      exact hrel.2.2 (hrel.1.symm.trans htype)
  · intro hwr
    exact usbCleanup_releases (usbLoop_inv uinputs _ hwr)

/-- Claim C8, witness: a run with a healthy Pi Camera (no switch) that
records once and is then interrupted, and a USB run quitting normally. -/
theorem c8_witness :
    (camRun ⟨fun _ => false, true, true, fun _ => true⟩ "auto"
        [CamIterInput.frame true 1 118, CamIterInput.interrupt]
        (initCamApp 0)).video_writer = none
      ∧ (usbRun true true [CamIterInput.frame true 1 113]
          ⟨false, false, none, 0⟩).video_writer = none := by
  constructor
  · exact ((c8_claim ⟨fun _ => false, true, true, fun _ => true⟩ "auto"
      [CamIterInput.frame true 1 118, CamIterInput.interrupt] 0 true []
      ⟨false, false, none, 0⟩).1 (by decide)).1
  · exact ((c8_claim ⟨fun _ => false, true, true, fun _ => true⟩ "auto"
      [] 0 true [CamIterInput.frame true 1 113]
      ⟨false, false, none, 0⟩).2 rfl).1
